import Mathlib

/-!
Verification development for the OneMind AI routing pipeline
(`routeContent`, `routeContentBatch`, `normalizeRouteResponse`,
`inferRouteFromText`, `inferTodoCategoryFromText`, `extractRouteFromText`,
`processVoiceInput` from the Gemini service module).

The embedding models JavaScript values as a `JSON` inductive (with a
distinguished `jundefined` for `undefined` and a NaN-aware number type), the
adapter as an explicit list of per-attempt outcomes, and the text-level
machinery (code-fence stripping, the three parse tiers, the salvage
regexes, the keyword heuristics) as executable functions on `List Char`.

Modelling notes, applying throughout:
* JS numbers are modelled as exact decimals `m / 10^e` plus a NaN value;
  JSON source text cannot denote NaN or infinities, and all numeric
  literals in the modelled code paths are small, so exact decimals are
  faithful (no overflow to Infinity is modelled).
* `\s` character classes are modelled as ASCII whitespace
  (space, tab, newline, carriage return, vertical tab, form feed);
  the exotic Unicode space code points accepted by JS are not used by
  any modelled input.
* `String.length`/`slice`/`substring` count UTF-16 code units in JS and
  characters here; these coincide on all BMP text (all Chinese text used
  by the program is BMP).
-/

/-- The left-brace character, written via its code point. -/
def braceL : Char := Char.ofNat 123

/-- The right-brace character, written via its code point. -/
def braceR : Char := Char.ofNat 125

/-- The backtick character, written via its code point. -/
def tickChar : Char := Char.ofNat 96

/-- ASCII whitespace, modelling the JS `\s` class and `String.trim`. -/
def isJsWs (c : Char) : Bool :=
  c = ' ' ∨ c = '\t' ∨ c = '\n' ∨ c = '\r' ∨ c = Char.ofNat 11 ∨ c = Char.ofNat 12

/-- ASCII decimal digit, modelling the JS `\d` class. -/
def isDig (c : Char) : Bool := '0' ≤ c ∧ c ≤ '9'

/-- JS `String.prototype.trim` on a character list. -/
def trimL (cs : List Char) : List Char :=
  ((cs.dropWhile isJsWs).reverse.dropWhile isJsWs).reverse

/-- JS `String.prototype.trim`. -/
def trimS (s : String) : String := String.mk (trimL s.data)

/-- JS `s.replace(/\s+/g, ' ')`: collapse every whitespace run to one space. -/
def collapseWsAux : List Char → Bool → List Char
  | [], _ => []
  | c :: rest, prevWs =>
    if isJsWs c then
      (if prevWs then collapseWsAux rest true else ' ' :: collapseWsAux rest true)
    else c :: collapseWsAux rest false

/-- `content.replace(/\s+/g, ' ').trim()`, the cleaning step used all over the source. -/
def cleanText (s : String) : String :=
  String.mk (trimL (collapseWsAux s.data false))

/-- Does `cs` start with `pat` (character-exact)? -/
def matchesAt : List Char → List Char → Bool
  | _, [] => true
  | [], _ :: _ => false
  | h :: hs, n :: ns => h = n && matchesAt hs ns

/-- Lower-case an ASCII letter (used to model the `/i` regex flag). -/
def lowerAscii (c : Char) : Char :=
  if 'A' ≤ c ∧ c ≤ 'Z' then Char.ofNat (c.toNat + 32) else c

/-- Does `cs` start with `pat`, comparing ASCII case-insensitively? -/
def matchesAtCI : List Char → List Char → Bool
  | _, [] => true
  | [], _ :: _ => false
  | h :: hs, n :: ns => lowerAscii h = lowerAscii n && matchesAtCI hs ns

/-- JS `String.prototype.includes` on character lists. -/
def containsSub : List Char → List Char → Bool
  | [], n => n.isEmpty
  | h :: rest, n => matchesAt (h :: rest) n || containsSub rest n

/-- JS `hay.includes(needle)`. -/
def strIncludes (hay needle : String) : Bool := containsSub hay.data needle.data

/-- JS `keywords.some(k => hay.includes(k))`. -/
def anyKw (hay : String) (kws : List String) : Bool :=
  kws.any fun k => strIncludes hay k

/-- A finite JS number, the exact decimal `m / 10 ^ e`. -/
structure JNum where
  m : Int
  e : Nat
deriving DecidableEq, Repr

/-- A JS number: a finite decimal or NaN.  Infinities never arise in the
modelled code paths (JSON text cannot denote them and all coercion sources
are short digit strings), so they are not represented. -/
inductive JsNumber where
  | fin (n : JNum)
  | nan
deriving DecidableEq, Repr

/-- The rational value of a finite JS number. -/
def toRat (n : JNum) : ℚ := (n.m : ℚ) / (10 : ℚ) ^ n.e

/-- Comparison of finite decimals by cross multiplication. -/
def jnumLt (a b : JNum) : Bool := a.m * (10 : Int) ^ b.e < b.m * (10 : Int) ^ a.e

/-- Non-strict comparison of finite decimals. -/
def jnumLe (a b : JNum) : Bool := a.m * (10 : Int) ^ b.e ≤ b.m * (10 : Int) ^ a.e

/-- JS `<` on numbers: any comparison with NaN is false. -/
def jsLtNum (a b : JsNumber) : Bool :=
  match a, b with
  | .fin x, .fin y => jnumLt x y
  | _, _ => false

/-- JS `<=`/`>=` on numbers: any comparison with NaN is false. -/
def jsLeNum (a b : JsNumber) : Bool :=
  match a, b with
  | .fin x, .fin y => jnumLe x y
  | _, _ => false

/-- JS values as they flow through the routing module: the JSON data
constructors plus `undefined`. -/
inductive JSON where
  | jnull
  | jundefined
  | jbool (b : Bool)
  | jnum (x : JsNumber)
  | jstr (s : String)
  | jarr (xs : List JSON)
  | jobj (fields : List (String × JSON))
deriving Repr

/-- Property lookup on an object's field list (fields have unique keys,
see `setF`). -/
def lookupF : List (String × JSON) → String → JSON
  | [], _ => .jundefined
  | (k', v) :: rest, k => if k' = k then v else lookupF rest k

/-- JS `v?.k` / `v.k` for the values the module reads fields from:
`undefined` for any non-object (including `null` under `?.`). -/
def optGet (v : JSON) (k : String) : JSON :=
  match v with
  | .jobj fs => lookupF fs k
  | _ => .jundefined

/-- Property assignment on a field list: overwrite in place, else append.
This is both JS assignment order and the `{...obj, k: v}` spread shape. -/
def setF : List (String × JSON) → String → JSON → List (String × JSON)
  | [], k, v => [(k, v)]
  | (k', v') :: rest, k, v =>
    if k' = k then (k, v) :: rest else (k', v') :: setF rest k v

/-- JS `obj.k = v` / `{...obj, k: v}`; a no-op on non-objects (the modelled
code never assigns through a primitive). -/
def setField : JSON → String → JSON → JSON
  | .jobj fs, k, v => .jobj (setF fs k v)
  | o, _, _ => o

/-- JS truthiness. -/
def truthyJ : JSON → Bool
  | .jnull => false
  | .jundefined => false
  | .jbool b => b
  | .jnum (.fin n) => ¬ n.m = 0
  | .jnum .nan => false
  | .jstr s => ¬ s.data.isEmpty
  | .jarr _ => true
  | .jobj _ => true

/-- JS `x ?? d`: `d` exactly when `x` is `null` or `undefined`. -/
def coalesce (x d : JSON) : JSON :=
  match x with
  | .jnull => d
  | .jundefined => d
  | v => v

/-- JS `x || d`: `d` exactly when `x` is falsy. -/
def orTruthy (x d : JSON) : JSON := if truthyJ x then x else d

/-- Value of a digit character. -/
def digVal (c : Char) : Nat := c.toNat - '0'.toNat

/-- Accumulate a digit list into a natural number. -/
def digitsToNat (cs : List Char) : Nat :=
  cs.foldl (fun acc c => acc * 10 + digVal c) 0

/-- JS `Number(s)` for a capture of the class `[0-9.]+`: a single optional
decimal point parses to a finite decimal; a second point (or a lone point)
gives NaN. `"5."` and `".5"` are valid JS numbers. -/
def jsCapNumber (cs : List Char) : JsNumber :=
  let intPart := cs.takeWhile isDig
  let rest := cs.drop intPart.length
  match rest with
  | [] => if cs.isEmpty then .nan else .fin ⟨digitsToNat intPart, 0⟩
  | c :: rest' =>
    if c = '.' then
      let frac := rest'.takeWhile isDig
      if rest'.drop frac.length |>.isEmpty then
        if intPart.isEmpty ∧ frac.isEmpty then .nan
        else .fin ⟨digitsToNat (intPart ++ frac), frac.length⟩
      else .nan
    else .nan

/-- JS `Number(s)` for an arbitrary string: trimmed, empty means `0`;
otherwise an optional sign followed by a `[0-9.]` body.  The exponent,
hexadecimal and `Infinity` forms accepted by JS `Number` are omitted:
no modelled input uses them. -/
def jsStrToNumber (s : String) : JsNumber :=
  let cs := trimL s.data
  match cs with
  | [] => .fin ⟨0, 0⟩
  | c :: rest =>
    if c = '-' then
      match jsCapNumber rest with
      | .fin n => .fin ⟨-n.m, n.e⟩
      | .nan => .nan
    else if c = '+' then jsCapNumber rest
    else jsCapNumber cs

/-- JS `Number(v)` coercion.  Arrays and objects coerce via their string
form in JS; the modelled code never feeds them to `Number`, so they are
mapped to NaN here. -/
def jsToNumber : JSON → JsNumber
  | .jundefined => .nan
  | .jnull => .fin ⟨0, 0⟩
  | .jbool b => .fin ⟨if b then 1 else 0, 0⟩
  | .jnum x => x
  | .jstr s => jsStrToNumber s
  | .jarr _ => .nan
  | .jobj _ => .nan

/-- JS `Number.isFinite(v)`: true only for non-NaN numbers (no type coercion). -/
def jsIsFiniteNumber : JSON → Bool
  | .jnum (.fin _) => true
  | _ => false

/-- Decimal rendering of a finite number (used only inside template
strings before keyword matching; JS trailing-zero stripping is not
reproduced, which no modelled keyword can observe). -/
def jnumRender (n : JNum) : String :=
  let digits := Nat.toDigits 10 n.m.natAbs
  let sign := if n.m < 0 then "-" else ""
  if n.e = 0 then sign ++ String.mk digits
  else
    let padded := List.replicate (n.e + 1 - digits.length) '0' ++ digits
    sign ++ String.mk (padded.take (padded.length - n.e)) ++ "." ++
      String.mk (padded.drop (padded.length - n.e))

/-- JS template-string interpolation of a value.  Array/object rendering is
simplified to the usual `[object Object]`; the modelled code only
interpolates strings and `undefined` in practice. -/
def jsToString : JSON → String
  | .jstr s => s
  | .jundefined => "undefined"
  | .jnull => "null"
  | .jbool b => if b then "true" else "false"
  | .jnum (.fin n) => jnumRender n
  | .jnum .nan => "NaN"
  | .jarr _ => ""
  | .jobj _ => "[object Object]"

/-- JSON-grammar whitespace (the four code points of RFC 8259). -/
def isJsonWs (c : Char) : Bool :=
  c = ' ' ∨ c = '\t' ∨ c = '\n' ∨ c = '\r'

/-- Skip JSON whitespace. -/
def skipWsL (cs : List Char) : List Char := cs.dropWhile isJsonWs

/-- The double-quote character. -/
def quoteChar : Char := '"'

/-- Hexadecimal digit value. -/
def hexVal (c : Char) : Option Nat :=
  if isDig c then some (digVal c)
  else if 'a' ≤ c ∧ c ≤ 'f' then some (c.toNat - 'a'.toNat + 10)
  else if 'A' ≤ c ∧ c ≤ 'F' then some (c.toNat - 'A'.toNat + 10)
  else none

/-- Body of a JSON string literal (after the opening quote), with the
standard escapes.  `\uXXXX` is accepted for Unicode scalar values and for
surrogate pairs; the lone surrogates JS tolerates are rejected, and no
modelled input contains them. -/
def parseJStrBody : Nat → List Char → List Char → Option (String × List Char)
  | 0, _, _ => none
  | _ + 1, _, [] => none
  | f + 1, acc, c :: rest =>
    if c = quoteChar then some (String.mk acc.reverse, rest)
    else if c = '\\' then
      match rest with
      | [] => none
      | e :: rest2 =>
        if e = quoteChar then parseJStrBody f (quoteChar :: acc) rest2
        else if e = '\\' then parseJStrBody f ('\\' :: acc) rest2
        else if e = '/' then parseJStrBody f ('/' :: acc) rest2
        else if e = 'b' then parseJStrBody f (Char.ofNat 8 :: acc) rest2
        else if e = 'f' then parseJStrBody f (Char.ofNat 12 :: acc) rest2
        else if e = 'n' then parseJStrBody f ('\n' :: acc) rest2
        else if e = 'r' then parseJStrBody f ('\r' :: acc) rest2
        else if e = 't' then parseJStrBody f ('\t' :: acc) rest2
        else if e = 'u' then
          match rest2 with
          | h1 :: h2 :: h3 :: h4 :: rest3 =>
            match hexVal h1, hexVal h2, hexVal h3, hexVal h4 with
            | some a, some b, some c', some d =>
              let n := ((a * 16 + b) * 16 + c') * 16 + d
              if n < 55296 ∨ (57344 ≤ n ∧ n < 1114112) then
                parseJStrBody f (Char.ofNat n :: acc) rest3
              else if n < 56320 then
                match rest3 with
                | b1 :: b2 :: k1 :: k2 :: k3 :: k4 :: rest4 =>
                  if b1 = '\\' ∧ b2 = 'u' then
                    match hexVal k1, hexVal k2, hexVal k3, hexVal k4 with
                    | some a2, some b2', some c2, some d2 =>
                      let m := ((a2 * 16 + b2') * 16 + c2) * 16 + d2
                      if 56320 ≤ m ∧ m < 57344 then
                        parseJStrBody f
                          (Char.ofNat (65536 + (n - 55296) * 1024 + (m - 56320)) :: acc) rest4
                      else none
                    | _, _, _, _ => none
                  else none
                | _ => none
              else none
            | _, _, _, _ => none
          | _ => none
        else none
    else if c.toNat < 32 then none
    else parseJStrBody f (c :: acc) rest

/-- A strict JSON number token: `-? int frac? exp?` with the leading-zero
rule, mapped to an exact decimal. -/
def parseJNum (cs : List Char) : Option (JNum × List Char) :=
  let signed := match cs with
    | c :: r => if c = '-' then (true, r) else (false, cs)
    | [] => (false, cs)
  let neg := signed.1
  let cs1 := signed.2
  let intPart := cs1.takeWhile isDig
  if intPart.isEmpty then none
  else if 1 < intPart.length ∧ intPart.head? = some '0' then none
  else
    let cs2 := cs1.drop intPart.length
    let fracStep : Option (List Char × List Char) := match cs2 with
      | '.' :: r2 =>
        let frac := r2.takeWhile isDig
        if frac.isEmpty then none else some (frac, r2.drop frac.length)
      | _ => some ([], cs2)
    match fracStep with
    | none => none
    | some (frac, cs3) =>
      let expStep : Option (Int × List Char) := match cs3 with
        | e :: r3 =>
          if e = 'e' ∨ e = 'E' then
            let esigned := match r3 with
              | s :: r4 => if s = '-' then (true, r4) else if s = '+' then (false, r4) else (false, r3)
              | [] => (false, r3)
            let eDigits := esigned.2.takeWhile isDig
            if eDigits.isEmpty then none
            else
              let ev : Int := digitsToNat eDigits
              some (if esigned.1 then -ev else ev, esigned.2.drop eDigits.length)
          else some (0, cs3)
        | [] => some (0, cs3)
      match expStep with
      | none => none
      | some (ev, cs4) =>
        let mant : Int := digitsToNat (intPart ++ frac)
        let mant := if neg then -mant else mant
        let net : Int := ev - frac.length
        if 0 ≤ net then some (⟨mant * (10 : Int) ^ net.toNat, 0⟩, cs4)
        else some (⟨mant, (-net).toNat⟩, cs4)

mutual

/-- One JSON value, recursive descent with fuel (fuel bounds the token
count, so `2 * length + 4` always suffices). -/
def parseJVal : Nat → List Char → Option (JSON × List Char)
  | 0, _ => none
  | f + 1, cs =>
    let cs := skipWsL cs
    match cs with
    | [] => none
    | c :: rest =>
      if c = braceL then
        let cs2 := skipWsL rest
        match cs2 with
        | c2 :: rest2 =>
          if c2 = braceR then some (.jobj [], rest2) else parseJObjRest f [] cs2
        | [] => none
      else if c = '[' then
        let cs2 := skipWsL rest
        match cs2 with
        | c2 :: rest2 =>
          if c2 = ']' then some (.jarr [], rest2) else parseJArrRest f [] cs2
        | [] => none
      else if c = quoteChar then
        match parseJStrBody (rest.length + 1) [] rest with
        | some (s, cs2) => some (.jstr s, cs2)
        | none => none
      else if c = 't' then
        if matchesAt cs "true".data then some (.jbool true, cs.drop 4) else none
      else if c = 'f' then
        if matchesAt cs "false".data then some (.jbool false, cs.drop 5) else none
      else if c = 'n' then
        if matchesAt cs "null".data then some (.jnull, cs.drop 4) else none
      else
        match parseJNum cs with
        | some (n, r) => some (.jnum (.fin n), r)
        | none => none

/-- Members of an object after the opening brace (first member expected);
duplicate keys overwrite in place, as JS property semantics do. -/
def parseJObjRest : Nat → List (String × JSON) → List Char → Option (JSON × List Char)
  | 0, _, _ => none
  | _ + 1, _, [] => none
  | f + 1, acc, c :: rest =>
    if c = quoteChar then
      match parseJStrBody (rest.length + 1) [] rest with
      | some (k, cs2) =>
        match skipWsL cs2 with
        | ch :: cs3 =>
          if ch = ':' then
            match parseJVal f cs3 with
            | some (v, cs4) =>
              let acc2 := setF acc k v
              match skipWsL cs4 with
              | ch2 :: cs5 =>
                if ch2 = braceR then some (.jobj acc2, cs5)
                else if ch2 = ',' then parseJObjRest f acc2 (skipWsL cs5)
                else none
              | [] => none
            | none => none
          else none
        | [] => none
      | none => none
    else none

/-- Elements of an array after the opening bracket (first element
expected), accumulated in reverse. -/
def parseJArrRest : Nat → List JSON → List Char → Option (JSON × List Char)
  | 0, _, _ => none
  | f + 1, acc, cs =>
    match parseJVal f cs with
    | some (v, cs2) =>
      match skipWsL cs2 with
      | ch :: cs3 =>
        if ch = ']' then some (.jarr (v :: acc).reverse, cs3)
        else if ch = ',' then parseJArrRest f (v :: acc) cs3
        else none
      | [] => none
    | none => none

end

/-- `JSON.parse(s)`: one value, then only trailing whitespace. -/
def jsonParse (s : String) : Option JSON :=
  match parseJVal (2 * s.length + 4) s.data with
  | some (v, rest) => if (skipWsL rest).isEmpty then some v else none
  | none => none

/-- The characters of the fence opener pattern matched by
`replace(/```json\s*/i, '')`. -/
def fencePat : List Char := [tickChar, tickChar, tickChar, 'j', 's', 'o', 'n']

/-- Remove the first (case-insensitive) occurrence of the fence opener and
the whitespace run after it. -/
def stripFenceJson : List Char → List Char
  | [] => []
  | c :: rest =>
    if matchesAtCI (c :: rest) fencePat then ((c :: rest).drop 7).dropWhile isJsWs
    else c :: stripFenceJson rest

/-- Remove every occurrence of a triple backtick, modelling
`replace(/```/g, '')`. -/
def removeTicks : List Char → List Char
  | c1 :: c2 :: c3 :: rest =>
    if c1 = tickChar ∧ c2 = tickChar ∧ c3 = tickChar then removeTicks rest
    else c1 :: removeTicks (c2 :: c3 :: rest)
  | cs => cs

/-- The model-reply cleaning pipeline of `routeContent`/`routeContentBatch`:
`resultText = reply.trim()`, then strip the fence opener, remove stray
triple backticks, and trim again. -/
def cleanModelText (r : String) : String :=
  trimS (String.mk (removeTicks (stripFenceJson (trimS r).data)))

/-- The greedy match of `/\{[\s\S]*\}/`: from the first left brace to the
last right brace at or after it. -/
def braceSpan (cs : List Char) : Option (List Char) :=
  let i := (cs.takeWhile fun c => ¬ c = braceL).length
  if i = cs.length then none
  else
    let suf := cs.drop i
    let j := (suf.reverse.takeWhile fun c => ¬ c = braceR).length
    if j = suf.length then none
    else some (suf.take (suf.length - j))

/-- Try a position-wise matcher at every start position, leftmost match
first, as a regex engine does. -/
def scanFor {α : Type} (p : List Char → Option α) : List Char → Option α
  | [] => none
  | c :: rest =>
    match p (c :: rest) with
    | some a => some a
    | none => scanFor p rest

/-- Match `"key"` (case-insensitively) then `\s*:\s*` at the current
position, returning the remainder. -/
def keyColon (key : List Char) (cs : List Char) : Option (List Char) :=
  if matchesAtCI cs (quoteChar :: key ++ [quoteChar]) then
    match (cs.drop (key.length + 2)).dropWhile isJsWs with
    | c :: cs3 => if c = ':' then some (cs3.dropWhile isJsWs) else none
    | [] => none
  else none

/-- Position matcher for `/"key"\s*:\s*"([^"\n\r]*)/i`: the capture runs to
the first quote or line break, or to the end of the text — a closing quote
is not required. -/
def matchStrCaptureAt (key : List Char) (cs : List Char) : Option String :=
  match keyColon key cs with
  | some (c :: cs2) =>
    if c = quoteChar then
      some (String.mk (cs2.takeWhile fun ch => ¬ (ch = quoteChar ∨ ch = '\n' ∨ ch = '\r')))
    else none
  | _ => none

/-- Position matcher for `/"key"\s*:\s*([0-9.]+)/i`: a non-empty greedy run
of digits and dots. -/
def matchNumCaptureAt (key : List Char) (cs : List Char) : Option (List Char) :=
  match keyColon key cs with
  | some cs1 =>
    let cap := cs1.takeWhile fun ch => isDig ch ∨ ch = '.'
    if cap.isEmpty then none else some cap
  | none => none

/-- The alternation `(finance|todo|inventory|unknown)"`, tried in regex
order; the capture keeps the original casing. -/
def routeAltTry (cs : List Char) : List String → Option String
  | [] => none
  | w :: ws =>
    if matchesAtCI cs w.data ∧ (cs.drop w.data.length).head? = some quoteChar then
      some (String.mk (cs.take w.data.length))
    else routeAltTry cs ws

/-- Position matcher for
`/"route_type"\s*:\s*"(finance|todo|inventory|unknown)"/i`. -/
def matchRouteAt (cs : List Char) : Option String :=
  match keyColon "route_type".data cs with
  | some (c :: cs2) =>
    if c = quoteChar then routeAltTry cs2 ["finance", "todo", "inventory", "unknown"]
    else none
  | _ => none

/-- Tier-3 field salvage `extractRouteFromText`: independently regex-extract
`route_type`, `confidence`, `summary`, and for finance also
`amount`/`category`/`description`, directly from the raw text. -/
def extractRouteFromText (text : String) : Option JSON :=
  let cs := text.data
  match scanFor matchRouteAt cs with
  | none => none
  | some route_type =>
    let confidence : JsNumber :=
      match scanFor (matchNumCaptureAt "confidence".data) cs with
      | some cap => jsCapNumber cap
      | none => .fin ⟨5, 1⟩
    let summary : String :=
      match scanFor (matchStrCaptureAt "summary".data) cs with
      | some s => s
      | none => "解析不完整，已自动修复"
    let data : JSON :=
      if route_type = "finance" then
        .jobj
          [("amount", .jnum (match scanFor (matchNumCaptureAt "amount".data) cs with
              | some cap => jsCapNumber cap
              | none => .fin ⟨0, 0⟩)),
           ("category", .jstr (match scanFor (matchStrCaptureAt "category".data) cs with
              | some s => s
              | none => "其他")),
           ("description", .jstr (match scanFor (matchStrCaptureAt "description".data) cs with
              | some s => s
              | none => summary))]
      else .jnull
    some (.jobj
      [("route_type", .jstr route_type),
       ("confidence", .jnum (match confidence with
          | .fin q => .fin q
          | .nan => .fin ⟨5, 1⟩)),
       ("summary", .jstr summary),
       ("data", data)])

/-- Position matcher for `/(\d+(?:\.\d+)?)(?:\s*(unit…))?/`: a digit run
with an optional fraction (group 1) and an optional unit character after
optional whitespace (group 2). -/
def matchNumTokenAt (units : List Char) (cs : List Char) : Option (List Char × Option Char) :=
  match cs with
  | [] => none
  | c :: _ =>
    if isDig c then
      let ip := cs.takeWhile isDig
      let rest := cs.drop ip.length
      let capRest : List Char × List Char :=
        match rest with
        | '.' :: r2 =>
          let fr := r2.takeWhile isDig
          if fr.isEmpty then (ip, rest) else (ip ++ '.' :: fr, r2.drop fr.length)
        | _ => (ip, rest)
      let rest2 := capRest.2.dropWhile isJsWs
      let unit := match rest2.head? with
        | some u => if units.contains u then some u else none
        | none => none
      some (capRest.1, unit)
    else none

/-- Unit alternatives of the amount regex in `inferRouteFromText`. -/
def amountUnits : List Char := ['元', '块', '¥']

/-- Unit alternatives of the quantity regex in `inferRouteFromText`. -/
def quantityUnits : List Char := ['个', '瓶', '袋', '盒', '斤', '克', '包', '箱', '件', '支', '片']

/-- `cleaned.match(/(\d+(?:\.\d+)?)(?:\s*(元|块|¥))?/)`. -/
def matchAmount (cs : List Char) : Option (List Char × Option Char) :=
  scanFor (matchNumTokenAt amountUnits) cs

/-- `cleaned.match(/(\d+(?:\.\d+)?)(?:\s*(个|瓶|袋|盒|斤|克|包|箱|件|支|片))?/)`. -/
def matchQuantity (cs : List Char) : Option (List Char × Option Char) :=
  scanFor (matchNumTokenAt quantityUnits) cs

/-- `buildSummaryFromText`: the cleaned text, truncated to 40 characters
with an ellipsis, or a fixed placeholder when empty. -/
def buildSummaryFromText (content : String) : String :=
  let cleaned := cleanText content
  if cleaned.data.isEmpty then "内容为空"
  else if 40 < cleaned.data.length then String.mk (cleaned.data.take 40) ++ "..."
  else cleaned

/-- `inferTodoCategoryFromText`: the fixed ordered keyword-set match of the
source, first matching set wins. -/
def inferTodoCategoryFromText (content : String) : String :=
  let cleaned := cleanText content
  if cleaned.data.isEmpty then "未分类"
  else if anyKw cleaned ["会议", "客户", "方案", "汇报", "项目", "同事", "周报", "对接"] then "工作"
  else if anyKw cleaned ["学习", "课程", "复习", "作业", "考试", "阅读", "笔记"] then "学习"
  else if anyKw cleaned ["健身", "跑步", "体检", "吃药", "看医生", "锻炼"] then "健康"
  else if anyKw cleaned ["买", "采购", "下单", "超市", "购物", "快递"] then "购物"
  else if anyKw cleaned ["出差", "旅行", "机票", "高铁", "航班", "酒店"] then "出行"
  else if anyKw cleaned ["家务", "缴费", "水电", "收拾", "做饭", "打扫"] then "生活"
  else if anyKw cleaned ["灵感", "想法", "点子", "idea", "主意"] then "灵感"
  else "未分类"

/-- The finance keyword set of `inferRouteFromText`. -/
def financeKeywords : List String :=
  ["花", "花费", "付款", "支付", "消费", "买", "购买", "账单", "收据", "费用", "¥", "元"]

/-- The todo keyword set of `inferRouteFromText`. -/
def todoKeywords : List String :=
  ["要做", "需要", "记得", "提醒", "任务", "计划", "安排", "待办"]

/-- The inventory keyword set of `inferRouteFromText`. -/
def inventoryKeywords : List String :=
  ["库存", "剩余", "还有", "补充", "用完", "存入", "放入", "放在", "冰箱", "冷冻", "冷藏"]

/-- The heuristic fallback classifier `inferRouteFromText`: keyword sets
with the fixed branch order (inventory-without-finance, then
finance-with-amount, then todo), confidence 0.4, `none` when no rule
applies. -/
def inferRouteFromText (content : String) : Option JSON :=
  let cleaned := cleanText content
  if cleaned.data.isEmpty then none
  else
    let hasFinance := anyKw cleaned financeKeywords
    let hasTodo := anyKw cleaned todoKeywords
    let hasInventory := anyKw cleaned inventoryKeywords
    let amountMatch := matchAmount cleaned.data
    let quantityMatch := matchQuantity cleaned.data
    if hasInventory ∧ ¬ hasFinance then
      let quantity : JsNumber := match quantityMatch with
        | some (cap, _) => jsCapNumber cap
        | none => .fin ⟨1, 0⟩
      let unit : String := match quantityMatch with
        | some (_, some u) => String.mk [u]
        | _ => "个"
      some (.jobj
        [("route_type", .jstr "inventory"),
         ("confidence", .jnum (.fin ⟨4, 1⟩)),
         ("summary", .jstr (buildSummaryFromText cleaned)),
         ("data", .jobj
           [("name", .jstr (buildSummaryFromText cleaned)),
            ("category", .jstr "其他"),
            ("storage_zone", .jstr
              (if strIncludes cleaned "冷冻" then "Freezer"
               else if strIncludes cleaned "冰箱" ∨ strIncludes cleaned "冷藏" then "Fridge"
               else "Other")),
            ("quantity", .jnum (match quantity with
               | .fin q => .fin q
               | .nan => .fin ⟨1, 0⟩)),
            ("unit", .jstr unit)])])
    else if hasFinance ∧ amountMatch.isSome then
      let amount : JsNumber := match amountMatch with
        | some (cap, _) => jsCapNumber cap
        | none => .nan
      some (.jobj
        [("route_type", .jstr "finance"),
         ("confidence", .jnum (.fin ⟨4, 1⟩)),
         ("summary", .jstr (buildSummaryFromText cleaned)),
         ("data", .jobj
           [("amount", .jnum (match amount with
              | .fin q => .fin q
              | .nan => .fin ⟨0, 0⟩)),
            ("category", .jstr "其他"),
            ("description", .jstr (buildSummaryFromText cleaned))])])
    else if hasTodo then
      some (.jobj
        [("route_type", .jstr "todo"),
         ("confidence", .jnum (.fin ⟨4, 1⟩)),
         ("summary", .jstr (buildSummaryFromText cleaned)),
         ("data", .jobj
           [("title", .jstr (buildSummaryFromText cleaned)),
            ("description", .jundefined),
            ("type", .jstr "Todo"),
            ("priority", .jnum (.fin ⟨2, 0⟩)),
            ("category", .jstr (inferTodoCategoryFromText cleaned))])])
    else none

/-- The `route_type` field when it is a string (the `===` comparisons of
the normalizer only fire on exact string equality). -/
def routeOf (r : JSON) : Option String :=
  match optGet r "route_type" with
  | .jstr s => some s
  | _ => none

/-- The finance payload built by `normalizeRouteResponse` from the incoming
payload `d` and the response summary. -/
def financeData (d summ : JSON) : JSON :=
  .jobj
    [("amount", coalesce (optGet d "amount") (.jnum (.fin ⟨0, 0⟩))),
     ("category", orTruthy (optGet d "category") (.jstr "其他")),
     ("description", orTruthy (optGet d "description") summ),
     ("emotion_tag", optGet d "emotion_tag"),
     ("is_essential", optGet d "is_essential"),
     ("record_date", optGet d "record_date")]

/-- Finance branch of `normalizeRouteResponse`. -/
def normFinance (r : JSON) : JSON :=
  setField r "data" (financeData (optGet r "data") (optGet r "summary"))

/-- The keyword category `normalizeRouteResponse` infers for a todo from
the concatenation of title and description; it beats an explicitly
supplied category whenever it is not `未分类`. -/
def todoRuleCategory (d : JSON) : String :=
  inferTodoCategoryFromText
    (trimS (jsToString (orTruthy (optGet d "title") (.jstr "")) ++ " " ++
            jsToString (orTruthy (optGet d "description") (.jstr ""))))

/-- The todo payload built by `normalizeRouteResponse` (see
`todoRuleCategory` for the keyword-inferred category). -/
def todoData (d summ : JSON) : JSON :=
  let priorityValue := jsToNumber (optGet d "priority")
  let ruleCategory := todoRuleCategory d
  let category : JSON :=
    if ¬ ruleCategory = "未分类" then .jstr ruleCategory
    else orTruthy (optGet d "category") (.jstr ruleCategory)
  .jobj
    [("title", orTruthy (orTruthy (optGet d "title") summ) (.jstr "未命名任务")),
     ("description", optGet d "description"),
     ("type", orTruthy (optGet d "type") (.jstr "Todo")),
     ("priority", .jnum
       (if jsLeNum (.fin ⟨1, 0⟩) priorityValue ∧ jsLeNum priorityValue (.fin ⟨3, 0⟩)
        then priorityValue else .fin ⟨2, 0⟩)),
     ("due_date", optGet d "due_date"),
     ("remind_at", optGet d "remind_at"),
     ("repeat_rule", optGet d "repeat_rule"),
     ("repeat_interval", optGet d "repeat_interval"),
     ("category", category)]

/-- Todo branch of `normalizeRouteResponse`. -/
def normTodo (r : JSON) : JSON :=
  setField r "data" (todoData (optGet r "data") (optGet r "summary"))

/-- The inventory payload built by `normalizeRouteResponse`. -/
def inventoryData (d summ : JSON) : JSON :=
  .jobj
    [("name", orTruthy (orTruthy (optGet d "name") summ) (.jstr "未命名物品")),
     ("category", orTruthy (optGet d "category") (.jstr "其他")),
     ("storage_zone", orTruthy (optGet d "storage_zone") (.jstr "Other")),
     ("quantity", if jsIsFiniteNumber (optGet d "quantity") then optGet d "quantity"
                  else .jnum (.fin ⟨1, 0⟩)),
     ("unit", orTruthy (optGet d "unit") (.jstr "个")),
     ("expiry_date", optGet d "expiry_date")]

/-- Inventory branch of `normalizeRouteResponse`. -/
def normInventory (r : JSON) : JSON :=
  setField r "data" (inventoryData (optGet r "data") (optGet r "summary"))

/-- `normalizeRouteResponse`: dispatch on the declared route, untouched for
`unknown` and for every unrecognized shape. -/
def normalizeRouteResponse (r : JSON) : JSON :=
  match routeOf r with
  | some s =>
    if s = "finance" then normFinance r
    else if s = "todo" then normTodo r
    else if s = "inventory" then normInventory r
    else r
  | none => r

/-- Outcome of one adapter attempt, the oracle parameter of the embedding:
either a transport/adapter-level failure carrying its error message, or the
raw reply text. -/
inductive AttemptOutcome where
  | transport (msg : String)
  | reply (text : String)

/-- Tier 3 of one attempt's reply parse: field salvage on the cleaned
text; when it also fails the attempt throws
`Invalid JSON response: <resultText>`. -/
def parseTier3 (r : String) : Except String JSON :=
  match extractRouteFromText (cleanModelText r) with
  | some v => .ok v
  | none => .error ("Invalid JSON response: " ++ trimS r)

/-- Tier 2 then tier 3: the greedy brace-span substring parse, falling back
to field salvage. -/
def parseTiers23 (r : String) : Except String JSON :=
  match braceSpan (cleanModelText r).data with
  | some span =>
    match jsonParse (String.mk span) with
    | some v => .ok v
    | none => parseTier3 r
  | none => parseTier3 r

/-- All three tiers of one attempt's reply parse. -/
def parseTiers (r : String) : Except String JSON :=
  let cleanedText := cleanModelText r
  if cleanedText.data.head? = some braceL ∧ strIncludes cleanedText (String.mk [braceR]) then
    match jsonParse cleanedText with
    | some v => .ok v
    | none => parseTiers23 r
  else parseTiers23 r

/-- The required-field check after a successful parse; its error message
does not contain the word JSON. -/
def validateStructure (parsed : JSON) : Except String JSON :=
  if ¬ truthyJ (optGet parsed "route_type") ∨ ¬ truthyJ (optGet parsed "summary") then
    .error "Invalid response structure: missing required fields"
  else .ok parsed

/-- The four legal route values. -/
def legalRoutes : List String := ["finance", "todo", "inventory", "unknown"]

/-- Coerce an unrecognized `route_type` to `unknown` (strict string
comparison, so any non-string is also coerced). -/
def coerceRoute (parsed : JSON) : JSON :=
  match optGet parsed "route_type" with
  | .jstr s =>
    if legalRoutes.contains s then parsed
    else setField parsed "route_type" (.jstr "unknown")
  | _ => setField parsed "route_type" (.jstr "unknown")

/-- Replace a missing, non-numeric or out-of-range confidence with 0.5.
NaN passes the two range tests, exactly as in the source. -/
def coerceConfidence (parsed : JSON) : JSON :=
  match optGet parsed "confidence" with
  | .jnum c =>
    if jsLtNum c (.fin ⟨0, 0⟩) ∨ jsLtNum (.fin ⟨1, 0⟩) c then
      setField parsed "confidence" (.jnum (.fin ⟨5, 1⟩))
    else parsed
  | _ => setField parsed "confidence" (.jnum (.fin ⟨5, 1⟩))

/-- Parse and validate one reply: tiers, structure check, route and
confidence coercion. -/
def routeAttempt (r : String) : Except String JSON :=
  match parseTiers r with
  | .error e => .error e
  | .ok parsed =>
    match validateStructure parsed with
    | .error e => .error e
    | .ok p => .ok (coerceConfidence (coerceRoute p))

/-- `result.confidence < 0.4` with JS numeric coercion. -/
def confLtTrust (r : JSON) : Bool :=
  jsLtNum (jsToNumber (optGet r "confidence")) (.fin ⟨4, 1⟩)

/-- One full successful attempt of `routeContent`: normalize, then the
trust decision — on an unknown route or confidence below 0.4, a non-null
heuristic guess (normalized) replaces the inference result. -/
def attemptResult (content : String) (r : String) : Except String JSON :=
  match routeAttempt r with
  | .error e => .error e
  | .ok parsed2 =>
    let normalized := normalizeRouteResponse parsed2
    if routeOf normalized = some "unknown" ∨ confLtTrust normalized then
      match inferRouteFromText content with
      | some h => .ok (normalizeRouteResponse h)
      | none => .ok normalized
    else .ok normalized

/-- The error an attempt outcome produces, if it fails: the transport
message, or the error thrown while handling the reply.  `none` means the
attempt succeeds. -/
def outcomeError (content : String) : AttemptOutcome → Option String
  | .transport e => some e
  | .reply t =>
    match attemptResult content t with
    | .ok _ => none
    | .error e => some e

/-- Summary of the exhaustion result when the last error message mentions
JSON. -/
def formatErrorSummary : String := "AI 响应格式错误，请重试"

/-- Summary of the exhaustion result otherwise. -/
def connectivityErrorSummary : String := "分析失败，请检查网络连接"

/-- The result returned when every attempt has failed: route `unknown`,
confidence 0, and a summary chosen by `lastError?.message.includes('JSON')`. -/
def finalFailure (lastError : Option String) : JSON :=
  .jobj
    [("route_type", .jstr "unknown"),
     ("confidence", .jnum (.fin ⟨0, 0⟩)),
     ("summary", .jstr (match lastError with
        | some m => if strIncludes m "JSON" then formatErrorSummary else connectivityErrorSummary
        | none => connectivityErrorSummary)),
     ("data", .jnull)]

/-- The attempt loop of `routeContent`.  The outcome list is the adapter
oracle (entry k answers attempt k); a real adapter always answers, the
empty-list clause only makes the function total.  The second component
counts adapter invocations. -/
def routeContentLoop (content : String) : Nat → List AttemptOutcome → Option String → JSON × Nat
  | 0, _, lastError => (finalFailure lastError, 0)
  | _ + 1, [], lastError => (finalFailure lastError, 0)
  | fuel + 1, o :: rest, _ =>
    match o with
    | .transport e =>
      let r := routeContentLoop content fuel rest (some e)
      (r.1, r.2 + 1)
    | .reply t =>
      match attemptResult content t with
      | .ok v => (v, 1)
      | .error e =>
        let r := routeContentLoop content fuel rest (some e)
        (r.1, r.2 + 1)

/-- `routeContent(content, maxRetries)` under the adapter oracle. -/
def routeContent (content : String) (maxRetries : Nat) (outcomes : List AttemptOutcome) : JSON :=
  (routeContentLoop content (maxRetries + 1) outcomes none).1

/-- Number of adapter calls the same run makes. -/
def routeContentCalls (content : String) (maxRetries : Nat) (outcomes : List AttemptOutcome) : Nat :=
  (routeContentLoop content (maxRetries + 1) outcomes none).2

/-- The items one batch attempt contributes: a single strict `JSON.parse`
of the cleaned reply (no tier 2/3 salvage), an `items` array wrapper or a
bare object, then the truthy-route filter and normalization. -/
def batchAttemptItems : AttemptOutcome → List JSON
  | .transport _ => []
  | .reply t =>
    match jsonParse (cleanModelText t) with
    | none => []
    | some parsed =>
      let items : List JSON := match optGet parsed "items" with
        | .jarr xs => xs
        | _ => [parsed]
      (items.filter fun it => truthyJ it && truthyJ (optGet it "route_type")).map
        normalizeRouteResponse

/-- The batch attempt loop: first attempt with a non-empty item list wins. -/
def batchLoop : Nat → List AttemptOutcome → Option (List JSON)
  | 0, _ => none
  | _ + 1, [] => none
  | fuel + 1, o :: rest =>
    let items := batchAttemptItems o
    if items.isEmpty then batchLoop fuel rest else some items

/-- `routeContentBatch(content, maxRetries)`: the batch attempts, then the
single-item `routeContent` (with its own default budget 2) wrapped in a
one-element list. -/
def routeContentBatch (content : String) (maxRetries : Nat)
    (batchOutcomes singleOutcomes : List AttemptOutcome) : List JSON :=
  match batchLoop (maxRetries + 1) batchOutcomes with
  | some items => items
  | none => [routeContent content 2 singleOutcomes]

/-- The result `processVoiceInput` returns for an empty transcription,
before any routing call. -/
def emptyTranscriptionResult : JSON :=
  .jobj
    [("route_type", .jstr "unknown"),
     ("confidence", .jnum (.fin ⟨0, 0⟩)),
     ("summary", .jstr "语音转录为空，请检查录音质量"),
     ("data", .jnull)]

/-- `processVoiceInput`: transcription (an oracle `Except`), the
empty-transcription guard, routing, and the low-confidence summary suffix.
The second component counts adapter calls made by routing. -/
def processVoiceInput (transcription : Except String String)
    (outcomes : List AttemptOutcome) : JSON × Nat :=
  match transcription with
  | .error msg =>
    (.jobj
      [("route_type", .jstr "unknown"),
       ("confidence", .jnum (.fin ⟨0, 0⟩)),
       ("summary", .jstr (if strIncludes msg "转录失败" then "语音转录失败，请重新录音"
          else "语音处理失败，请重试")),
       ("data", .jnull)], 0)
  | .ok t =>
    if t.data.isEmpty ∨ (trimS t).data.isEmpty then (emptyTranscriptionResult, 0)
    else
      let result := routeContent t 2 outcomes
      let calls := routeContentCalls t 2 outcomes
      let result2 :=
        if jsLtNum (jsToNumber (optGet result "confidence")) (.fin ⟨7, 1⟩) then
          setField result "summary" (.jstr (jsToString (optGet result "summary") ++
            " (原文: " ++ String.mk (t.data.take 30) ++
            (if 30 < t.data.length then "..." else "") ++ ")"))
        else result
      (result2, calls)

/-- Modelled from the spec wording of the confidence step (for claim
comparison only, not part of the source embedding): clamp a numeric
confidence into the interval and default 0.5 when the field is missing or
non-numeric. -/
def specClampConfidence (v : JSON) : JsNumber :=
  match v with
  | .jnum (.fin q) =>
    if jnumLt q ⟨0, 0⟩ then .fin ⟨0, 0⟩
    else if jnumLt ⟨1, 0⟩ q then .fin ⟨1, 0⟩
    else .fin q
  | _ => .fin ⟨5, 1⟩

/-- Shape of a normalized finance payload: exactly the declared keys in
construction order, a present (never null/undefined) amount and a truthy
category. -/
def financeShaped (d : JSON) : Prop :=
  ∃ a c de et ie rd,
    d = .jobj [("amount", a), ("category", c), ("description", de),
               ("emotion_tag", et), ("is_essential", ie), ("record_date", rd)] ∧
    ¬ a = .jnull ∧ ¬ a = .jundefined ∧ truthyJ c = true

/-- Shape of a normalized todo payload: exactly the declared keys, truthy
title, type and category, and a finite priority between 1 and 3. -/
def todoShaped (d : JSON) : Prop :=
  ∃ ti de ty pr dd ra rr ri ca,
    d = .jobj [("title", ti), ("description", de), ("type", ty), ("priority", pr),
               ("due_date", dd), ("remind_at", ra), ("repeat_rule", rr),
               ("repeat_interval", ri), ("category", ca)] ∧
    truthyJ ti = true ∧ truthyJ ty = true ∧
    (∃ q, pr = .jnum (.fin q) ∧ 1 ≤ toRat q ∧ toRat q ≤ 3) ∧ truthyJ ca = true

/-- Shape of a normalized inventory payload: exactly the declared keys,
truthy name, category, storage zone and unit, and a finite quantity. -/
def inventoryShaped (d : JSON) : Prop :=
  ∃ na ca sz qt un ed,
    d = .jobj [("name", na), ("category", ca), ("storage_zone", sz), ("quantity", qt),
               ("unit", un), ("expiry_date", ed)] ∧
    truthyJ na = true ∧ truthyJ ca = true ∧ truthyJ sz = true ∧
    (∃ q, qt = .jnum (.fin q)) ∧ truthyJ un = true

/-- Route-indexed payload shape. -/
def shapedFor (s : String) (d : JSON) : Prop :=
  if s = "finance" then financeShaped d
  else if s = "todo" then todoShaped d
  else if s = "inventory" then inventoryShaped d
  else True

mutual

/-- No NaN value occurs anywhere inside a JS value.  `jsonParse` only ever
produces NaN-free values (JSON text cannot denote NaN), which is what makes
the confidence validation of `routeContent` total on real replies. -/
def nanFree : JSON → Bool
  | .jnum .nan => false
  | .jnum (.fin _) => true
  | .jnull => true
  | .jundefined => true
  | .jbool _ => true
  | .jstr _ => true
  | .jarr xs => nanFreeL xs
  | .jobj fs => nanFreeF fs

/-- `nanFree` over array elements. -/
def nanFreeL : List JSON → Bool
  | [] => true
  | v :: rest => nanFree v && nanFreeL rest

/-- `nanFree` over object fields. -/
def nanFreeF : List (String × JSON) → Bool
  | [] => true
  | (_, v) :: rest => nanFree v && nanFreeF rest

end

theorem jnumLt_iff (a b : JNum) : jnumLt a b = true ↔ toRat a < toRat b := by
  unfold jnumLt toRat
  rw [decide_eq_true_iff, div_lt_div_iff₀ (by positivity) (by positivity)]
  constructor
  · intro h; exact_mod_cast h
  · intro h; exact_mod_cast h

theorem jnumLe_iff (a b : JNum) : jnumLe a b = true ↔ toRat a ≤ toRat b := by
  unfold jnumLe toRat
  rw [decide_eq_true_iff, div_le_div_iff₀ (by positivity) (by positivity)]
  constructor
  · intro h; exact_mod_cast h
  · intro h; exact_mod_cast h

theorem toRat_int (m : Int) : toRat ⟨m, 0⟩ = (m : ℚ) := by
  simp [toRat]

theorem toRat_half : toRat ⟨5, 1⟩ = 1 / 2 := by
  norm_num [toRat]

theorem lookupF_setF_self (fs : List (String × JSON)) (k : String) (v : JSON) :
    lookupF (setF fs k v) k = v := by
  induction fs with
  | nil => simp [setF, lookupF]
  | cons kv rest ih =>
    obtain ⟨k', v'⟩ := kv
    by_cases h : k' = k
    · simp [setF, h, lookupF]
    · simp [setF, h, lookupF, ih]

theorem lookupF_setF_ne (fs : List (String × JSON)) (k k' : String) (v : JSON)
    (h : ¬ k' = k) : lookupF (setF fs k v) k' = lookupF fs k' := by
  have h2 : ¬ k = k' := fun hh => h (Eq.symm hh)
  induction fs with
  | nil => simp [setF, lookupF, h2]
  | cons kv rest ih =>
    obtain ⟨k0, v0⟩ := kv
    by_cases h0 : k0 = k
    · subst h0
      simp [setF, lookupF, h2]
    · simp [setF, h0, lookupF, ih]

theorem optGet_setField_self (fs : List (String × JSON)) (k : String) (v : JSON) :
    optGet (setField (.jobj fs) k v) k = v := by
  simp [setField, optGet, lookupF_setF_self]

theorem optGet_setField_ne (fs : List (String × JSON)) (k k' : String) (v : JSON)
    (h : ¬ k' = k) : optGet (setField (.jobj fs) k v) k' = lookupF fs k' := by
  simp [setField, optGet, lookupF_setF_ne _ _ _ _ h]

theorem setF_setF (fs : List (String × JSON)) (k : String) (v w : JSON) :
    setF (setF fs k v) k w = setF fs k w := by
  induction fs with
  | nil => simp [setF]
  | cons kv rest ih =>
    obtain ⟨k', v'⟩ := kv
    by_cases h : k' = k
    · simp [setF, h]
    · simp [setF, h, ih]

theorem setField_setField (fs : List (String × JSON)) (k : String) (v w : JSON) :
    setField (setField (.jobj fs) k v) k w = setField (.jobj fs) k w := by
  simp [setField, setF_setF]

theorem truthy_optGet_jobj (p : JSON) (k : String) (h : truthyJ (optGet p k) = true) :
    ∃ fs, p = .jobj fs := by
  cases p with
  | jobj fs => exact ⟨fs, rfl⟩
  | jnull => simp [optGet, truthyJ] at h
  | jundefined => simp [optGet, truthyJ] at h
  | jbool b => simp [optGet, truthyJ] at h
  | jnum x => simp [optGet, truthyJ] at h
  | jstr s => simp [optGet, truthyJ] at h
  | jarr xs => simp [optGet, truthyJ] at h

theorem orTruthy_pos (x d : JSON) (h : truthyJ x = true) : orTruthy x d = x := by
  simp [orTruthy, h]

theorem truthyJ_orTruthy (x d : JSON) :
    truthyJ (orTruthy x d) = (truthyJ x || truthyJ d) := by
  by_cases hx : truthyJ x = true
  · simp [orTruthy, hx]
  · simp only [orTruthy, hx, if_false, Bool.false_or]
    simp [Bool.not_eq_true] at hx
    simp [hx]

theorem orTruthy_idem (x d : JSON) : orTruthy (orTruthy x d) d = orTruthy x d := by
  by_cases hx : truthyJ x = true
  · simp [orTruthy, hx]
  · simp only [orTruthy, hx]
    by_cases hd : truthyJ d = true <;> simp [hd]

theorem coalesce_jnum_ne_jnull (x : JSON) (n : JsNumber) :
    ¬ coalesce x (.jnum n) = .jnull := by
  cases x <;> simp [coalesce]

theorem coalesce_jnum_ne_jundefined (x : JSON) (n : JsNumber) :
    ¬ coalesce x (.jnum n) = .jundefined := by
  cases x <;> simp [coalesce]

theorem coalesce_coalesce_jnum (x : JSON) (n : JsNumber) :
    coalesce (coalesce x (.jnum n)) (.jnum n) = coalesce x (.jnum n) := by
  cases x <;> simp [coalesce]

theorem routeOf_jobj (r : JSON) (s : String) (h : routeOf r = some s) :
    ∃ fs, r = .jobj fs := by
  cases r with
  | jobj fs => exact ⟨fs, rfl⟩
  | jnull => simp [routeOf, optGet] at h
  | jundefined => simp [routeOf, optGet] at h
  | jbool b => simp [routeOf, optGet] at h
  | jnum x => simp [routeOf, optGet] at h
  | jstr s' => simp [routeOf, optGet] at h
  | jarr xs => simp [routeOf, optGet] at h

theorem optGet_normalize_ne_data (r : JSON) (k : String) (hk : ¬ k = "data") :
    optGet (normalizeRouteResponse r) k = optGet r k := by
  have hset : ∀ fs D, optGet (setField (JSON.jobj fs) "data" D) k = optGet (JSON.jobj fs) k := by
    intro fs D
    rw [optGet_setField_ne _ _ _ _ hk]
    rfl
  unfold normalizeRouteResponse
  cases hr : routeOf r with
  | none => rfl
  | some s =>
    obtain ⟨fs, rfl⟩ := routeOf_jobj _ _ hr
    dsimp only
    split_ifs with h1 h2 h3
    · rw [normFinance]; exact hset _ _
    · rw [normTodo]; exact hset _ _
    · rw [normInventory]; exact hset _ _
    · rfl

theorem routeOf_normalize (r : JSON) :
    routeOf (normalizeRouteResponse r) = routeOf r := by
  unfold routeOf
  rw [optGet_normalize_ne_data r "route_type" (by decide)]

theorem conf_normalize (r : JSON) :
    optGet (normalizeRouteResponse r) "confidence" = optGet r "confidence" :=
  optGet_normalize_ne_data r "confidence" (by decide)

theorem inferTodoCategoryFromText_mem (s : String) :
    inferTodoCategoryFromText s ∈
      ["未分类", "工作", "学习", "健康", "购物", "出行", "生活", "灵感"] := by
  simp only [inferTodoCategoryFromText]
  split_ifs <;> simp

theorem inferTodoCategoryFromText_ne_empty (s : String) :
    ¬ inferTodoCategoryFromText s = "" := by
  have h := inferTodoCategoryFromText_mem s
  simp only [List.mem_cons, List.not_mem_nil, or_false] at h
  rcases h with h | h | h | h | h | h | h | h <;> rw [h] <;> decide

theorem normFinance_shaped (fs : List (String × JSON)) :
    financeShaped (optGet (normFinance (.jobj fs)) "data") := by
  rw [normFinance, optGet_setField_self]
  refine ⟨_, _, _, _, _, _, rfl, coalesce_jnum_ne_jnull _ _, coalesce_jnum_ne_jundefined _ _, ?_⟩
  rw [truthyJ_orTruthy, (by decide : truthyJ (JSON.jstr "其他") = true), Bool.or_true]

theorem todo_category_truthy (rc : String) (c0 : JSON) (hrc : ¬ rc = "") :
    truthyJ (if ¬ rc = "未分类" then JSON.jstr rc else orTruthy c0 (.jstr rc)) = true := by
  by_cases h : ¬ rc = "未分类"
  · rw [if_pos h]
    simp only [truthyJ, List.isEmpty_iff, decide_eq_true_eq]
    intro hdata
    exact hrc (congrArg String.mk hdata)
  · rw [if_neg h]
    simp only [Decidable.not_not] at h
    subst h
    rw [truthyJ_orTruthy, (by decide : truthyJ (JSON.jstr "未分类") = true), Bool.or_true]

theorem normTodo_shaped (fs : List (String × JSON)) :
    todoShaped (optGet (normTodo (.jobj fs)) "data") := by
  rw [normTodo, optGet_setField_self]
  refine ⟨_, _, _, _, _, _, _, _, _, rfl, ?_, ?_, ?_, ?_⟩
  · rw [truthyJ_orTruthy, (by decide : truthyJ (JSON.jstr "未命名任务") = true), Bool.or_true]
  · rw [truthyJ_orTruthy, (by decide : truthyJ (JSON.jstr "Todo") = true), Bool.or_true]
  · by_cases hc : (jsLeNum (.fin ⟨1, 0⟩) (jsToNumber (optGet (optGet (JSON.jobj fs) "data") "priority")) = true ∧
        jsLeNum (jsToNumber (optGet (optGet (JSON.jobj fs) "data") "priority")) (.fin ⟨3, 0⟩) = true)
    · rw [if_pos hc]
      obtain ⟨h1, h3⟩ := hc
      cases hpv : jsToNumber (optGet (optGet (JSON.jobj fs) "data") "priority") with
      | nan => rw [hpv] at h1; simp [jsLeNum] at h1
      | fin q =>
        rw [hpv] at h1 h3
        refine ⟨q, rfl, ?_, ?_⟩
        · have := (jnumLe_iff ⟨1, 0⟩ q).mp (by simpa [jsLeNum] using h1)
          rwa [toRat_int] at this
        · have := (jnumLe_iff q ⟨3, 0⟩).mp (by simpa [jsLeNum] using h3)
          rwa [toRat_int] at this
    · rw [if_neg hc]
      refine ⟨⟨2, 0⟩, rfl, ?_, ?_⟩ <;> rw [toRat_int] <;> norm_num
  · exact todo_category_truthy _ _ (inferTodoCategoryFromText_ne_empty _)

theorem normInventory_shaped (fs : List (String × JSON)) :
    inventoryShaped (optGet (normInventory (.jobj fs)) "data") := by
  rw [normInventory, optGet_setField_self]
  refine ⟨_, _, _, _, _, _, rfl, ?_, ?_, ?_, ?_, ?_⟩
  · rw [truthyJ_orTruthy, (by decide : truthyJ (JSON.jstr "未命名物品") = true), Bool.or_true]
  · rw [truthyJ_orTruthy, (by decide : truthyJ (JSON.jstr "其他") = true), Bool.or_true]
  · rw [truthyJ_orTruthy, (by decide : truthyJ (JSON.jstr "Other") = true), Bool.or_true]
  · by_cases hq : jsIsFiniteNumber (optGet (optGet (JSON.jobj fs) "data") "quantity") = true
    · rw [if_pos hq]
      cases hv : optGet (optGet (JSON.jobj fs) "data") "quantity" with
      | jnum x =>
        cases x with
        | fin q => exact ⟨q, rfl⟩
        | nan => rw [hv] at hq; simp [jsIsFiniteNumber] at hq
      | jnull => rw [hv] at hq; simp [jsIsFiniteNumber] at hq
      | jundefined => rw [hv] at hq; simp [jsIsFiniteNumber] at hq
      | jbool b => rw [hv] at hq; simp [jsIsFiniteNumber] at hq
      | jstr s => rw [hv] at hq; simp [jsIsFiniteNumber] at hq
      | jarr xs => rw [hv] at hq; simp [jsIsFiniteNumber] at hq
      | jobj gs => rw [hv] at hq; simp [jsIsFiniteNumber] at hq
    · rw [if_neg hq]
      exact ⟨⟨1, 0⟩, rfl⟩
  · rw [truthyJ_orTruthy, (by decide : truthyJ (JSON.jstr "个") = true), Bool.or_true]

theorem normalize_shaped (r : JSON) (s : String) (hr : routeOf r = some s)
    (hs : s = "finance" ∨ s = "todo" ∨ s = "inventory") :
    shapedFor s (optGet (normalizeRouteResponse r) "data") := by
  obtain ⟨fs, rfl⟩ := routeOf_jobj _ _ hr
  unfold normalizeRouteResponse
  rw [hr]
  dsimp only
  rcases hs with h | h | h <;> subst h <;> simp only [shapedFor, reduceIte]
  · exact normFinance_shaped fs
  · exact normTodo_shaped fs
  · exact normInventory_shaped fs

theorem normalize_eq_finance (r : JSON) (hr : routeOf r = some "finance") :
    normalizeRouteResponse r = normFinance r := by
  unfold normalizeRouteResponse
  rw [hr]
  dsimp only
  rw [if_pos rfl]

theorem normalize_eq_todo (r : JSON) (hr : routeOf r = some "todo") :
    normalizeRouteResponse r = normTodo r := by
  unfold normalizeRouteResponse
  rw [hr]
  dsimp only
  rw [if_neg (by decide), if_pos rfl]

theorem normalize_eq_inventory (r : JSON) (hr : routeOf r = some "inventory") :
    normalizeRouteResponse r = normInventory r := by
  unfold normalizeRouteResponse
  rw [hr]
  dsimp only
  rw [if_neg (by decide), if_neg (by decide), if_pos rfl]

theorem normalize_eq_self_none (r : JSON) (hr : routeOf r = none) :
    normalizeRouteResponse r = r := by
  unfold normalizeRouteResponse
  rw [hr]

theorem normalize_eq_self_other (r : JSON) (s : String) (hr : routeOf r = some s)
    (h1 : ¬ s = "finance") (h2 : ¬ s = "todo") (h3 : ¬ s = "inventory") :
    normalizeRouteResponse r = r := by
  unfold normalizeRouteResponse
  rw [hr]
  dsimp only
  rw [if_neg h1, if_neg h2, if_neg h3]

theorem financeData_idem (d summ : JSON) :
    financeData (financeData d summ) summ = financeData d summ := by
  show JSON.jobj
    [("amount", coalesce (coalesce (optGet d "amount") (.jnum (.fin ⟨0, 0⟩))) (.jnum (.fin ⟨0, 0⟩))),
     ("category", orTruthy (orTruthy (optGet d "category") (.jstr "其他")) (.jstr "其他")),
     ("description", orTruthy (orTruthy (optGet d "description") summ) summ),
     ("emotion_tag", optGet d "emotion_tag"),
     ("is_essential", optGet d "is_essential"),
     ("record_date", optGet d "record_date")] = financeData d summ
  rw [coalesce_coalesce_jnum, orTruthy_idem, orTruthy_idem]
  rfl

theorem inventoryData_idem (d summ : JSON) :
    inventoryData (inventoryData d summ) summ = inventoryData d summ := by
  show JSON.jobj
    [("name", orTruthy (orTruthy (orTruthy (orTruthy (optGet d "name") summ) (.jstr "未命名物品")) summ)
        (.jstr "未命名物品")),
     ("category", orTruthy (orTruthy (optGet d "category") (.jstr "其他")) (.jstr "其他")),
     ("storage_zone", orTruthy (orTruthy (optGet d "storage_zone") (.jstr "Other")) (.jstr "Other")),
     ("quantity",
       if jsIsFiniteNumber (if jsIsFiniteNumber (optGet d "quantity") then optGet d "quantity"
           else .jnum (.fin ⟨1, 0⟩)) then
         (if jsIsFiniteNumber (optGet d "quantity") then optGet d "quantity" else .jnum (.fin ⟨1, 0⟩))
       else .jnum (.fin ⟨1, 0⟩)),
     ("unit", orTruthy (orTruthy (optGet d "unit") (.jstr "个")) (.jstr "个")),
     ("expiry_date", optGet d "expiry_date")] = inventoryData d summ
  have hname : truthyJ (orTruthy (orTruthy (optGet d "name") summ) (.jstr "未命名物品")) = true := by
    rw [truthyJ_orTruthy, (by decide : truthyJ (JSON.jstr "未命名物品") = true), Bool.or_true]
  have hq : (if jsIsFiniteNumber (if jsIsFiniteNumber (optGet d "quantity") then optGet d "quantity"
        else .jnum (.fin ⟨1, 0⟩)) then
      (if jsIsFiniteNumber (optGet d "quantity") then optGet d "quantity" else .jnum (.fin ⟨1, 0⟩))
    else .jnum (.fin ⟨1, 0⟩)) =
      (if jsIsFiniteNumber (optGet d "quantity") then optGet d "quantity" else .jnum (.fin ⟨1, 0⟩)) := by
    by_cases h : jsIsFiniteNumber (optGet d "quantity") = true
    · rw [if_pos h, if_pos h]
    · rw [if_neg h, ite_self]
  rw [orTruthy_pos _ _ hname, orTruthy_pos _ _ hname, orTruthy_idem, orTruthy_idem, orTruthy_idem, hq]
  rfl

theorem jsToNumber_jnum (x : JsNumber) : jsToNumber (.jnum x) = x := rfl

theorem todoData_title (d s : JSON) :
    optGet (todoData d s) "title" =
      orTruthy (orTruthy (optGet d "title") s) (.jstr "未命名任务") := rfl

theorem todoData_description (d s : JSON) :
    optGet (todoData d s) "description" = optGet d "description" := rfl

theorem todoData_type (d s : JSON) :
    optGet (todoData d s) "type" = orTruthy (optGet d "type") (.jstr "Todo") := rfl

theorem todoData_priority (d s : JSON) :
    optGet (todoData d s) "priority" = .jnum
      (if jsLeNum (.fin ⟨1, 0⟩) (jsToNumber (optGet d "priority")) = true ∧
          jsLeNum (jsToNumber (optGet d "priority")) (.fin ⟨3, 0⟩) = true
       then jsToNumber (optGet d "priority") else .fin ⟨2, 0⟩) := rfl

theorem todoData_due (d s : JSON) :
    optGet (todoData d s) "due_date" = optGet d "due_date" := rfl

theorem todoData_remind (d s : JSON) :
    optGet (todoData d s) "remind_at" = optGet d "remind_at" := rfl

theorem todoData_rule (d s : JSON) :
    optGet (todoData d s) "repeat_rule" = optGet d "repeat_rule" := rfl

theorem todoData_interval (d s : JSON) :
    optGet (todoData d s) "repeat_interval" = optGet d "repeat_interval" := rfl

theorem lookupF_cons_eq (k : String) (v0 : JSON) (rest : List (String × JSON)) :
    lookupF ((k, v0) :: rest) k = v0 := by
  simp [lookupF]

theorem lookupF_cons_ne (k0 : String) (v0 : JSON) (rest : List (String × JSON)) (k : String)
    (h : ¬ k0 = k) : lookupF ((k0, v0) :: rest) k = lookupF rest k := by
  simp [lookupF, h]

theorem todoData_category (d s : JSON) :
    optGet (todoData d s) "category" =
      (if ¬ todoRuleCategory d = "未分类" then JSON.jstr (todoRuleCategory d)
       else orTruthy (optGet d "category") (.jstr (todoRuleCategory d))) := by
  conv_lhs => rw [todoData]
  rw [show ∀ fs, optGet (JSON.jobj fs) "category" = lookupF fs "category" from fun _ => rfl]
  rw [lookupF_cons_ne _ _ _ _ (by decide), lookupF_cons_ne _ _ _ _ (by decide),
    lookupF_cons_ne _ _ _ _ (by decide), lookupF_cons_ne _ _ _ _ (by decide),
    lookupF_cons_ne _ _ _ _ (by decide), lookupF_cons_ne _ _ _ _ (by decide),
    lookupF_cons_ne _ _ _ _ (by decide), lookupF_cons_ne _ _ _ _ (by decide),
    lookupF_cons_eq]

theorem priority_idem (pv : JsNumber) :
    (if jsLeNum (.fin ⟨1, 0⟩)
          (if jsLeNum (.fin ⟨1, 0⟩) pv = true ∧ jsLeNum pv (.fin ⟨3, 0⟩) = true
           then pv else .fin ⟨2, 0⟩) = true ∧
        jsLeNum (if jsLeNum (.fin ⟨1, 0⟩) pv = true ∧ jsLeNum pv (.fin ⟨3, 0⟩) = true
           then pv else .fin ⟨2, 0⟩) (.fin ⟨3, 0⟩) = true
     then (if jsLeNum (.fin ⟨1, 0⟩) pv = true ∧ jsLeNum pv (.fin ⟨3, 0⟩) = true
           then pv else .fin ⟨2, 0⟩)
     else .fin ⟨2, 0⟩) =
    (if jsLeNum (.fin ⟨1, 0⟩) pv = true ∧ jsLeNum pv (.fin ⟨3, 0⟩) = true
     then pv else .fin ⟨2, 0⟩) := by
  by_cases h : jsLeNum (.fin ⟨1, 0⟩) pv = true ∧ jsLeNum pv (.fin ⟨3, 0⟩) = true
  · simp only [if_pos h]
  · simp only [if_neg h]
    rw [if_pos (by decide)]

theorem category_idem (rc : String) (c0 : JSON) :
    (if ¬ rc = "未分类" then JSON.jstr rc
     else orTruthy (if ¬ rc = "未分类" then JSON.jstr rc else orTruthy c0 (.jstr rc))
       (.jstr rc)) =
    (if ¬ rc = "未分类" then JSON.jstr rc else orTruthy c0 (.jstr rc)) := by
  by_cases h : ¬ rc = "未分类"
  · simp only [if_pos h]
  · simp only [if_neg h, orTruthy_idem]

theorem todoData_idem (d summ : JSON) (ht : truthyJ (optGet d "title") = true) :
    todoData (todoData d summ) summ = todoData d summ := by
  have e1 : orTruthy (optGet d "title") summ = optGet d "title" := orTruthy_pos _ _ ht
  have e2 : orTruthy (optGet d "title") (.jstr "未命名任务") = optGet d "title" :=
    orTruthy_pos _ _ ht
  have htitle : optGet (todoData d summ) "title" = optGet d "title" := by
    rw [todoData_title, e1, e2]
  have hrc : todoRuleCategory (todoData d summ) = todoRuleCategory d := by
    unfold todoRuleCategory
    rw [todoData_title, todoData_description, e1, e2]
  conv_lhs => rw [todoData]
  rw [htitle, hrc, todoData_description, todoData_type, todoData_priority, todoData_due,
    todoData_remind, todoData_rule, todoData_interval, todoData_category, jsToNumber_jnum,
    orTruthy_idem, priority_idem, category_idem]
  rfl

theorem normFinance_idem (fs : List (String × JSON)) :
    normFinance (normFinance (.jobj fs)) = normFinance (.jobj fs) := by
  have hsum : optGet (normFinance (.jobj fs)) "summary" = optGet (.jobj fs) "summary" := by
    rw [normFinance, optGet_setField_ne _ _ _ _ (by decide)]
    rfl
  have hdat : optGet (normFinance (.jobj fs)) "data" =
      financeData (optGet (.jobj fs) "data") (optGet (.jobj fs) "summary") := by
    rw [normFinance, optGet_setField_self]
  conv_lhs => rw [normFinance]
  rw [hsum, hdat, financeData_idem, normFinance, setField_setField]

theorem normTodo_idem (fs : List (String × JSON))
    (ht : truthyJ (optGet (optGet (.jobj fs) "data") "title") = true) :
    normTodo (normTodo (.jobj fs)) = normTodo (.jobj fs) := by
  have hsum : optGet (normTodo (.jobj fs)) "summary" = optGet (.jobj fs) "summary" := by
    rw [normTodo, optGet_setField_ne _ _ _ _ (by decide)]
    rfl
  have hdat : optGet (normTodo (.jobj fs)) "data" =
      todoData (optGet (.jobj fs) "data") (optGet (.jobj fs) "summary") := by
    rw [normTodo, optGet_setField_self]
  conv_lhs => rw [normTodo]
  rw [hsum, hdat, todoData_idem _ _ ht, normTodo, setField_setField]

theorem normInventory_idem (fs : List (String × JSON)) :
    normInventory (normInventory (.jobj fs)) = normInventory (.jobj fs) := by
  have hsum : optGet (normInventory (.jobj fs)) "summary" = optGet (.jobj fs) "summary" := by
    rw [normInventory, optGet_setField_ne _ _ _ _ (by decide)]
    rfl
  have hdat : optGet (normInventory (.jobj fs)) "data" =
      inventoryData (optGet (.jobj fs) "data") (optGet (.jobj fs) "summary") := by
    rw [normInventory, optGet_setField_self]
  conv_lhs => rw [normInventory]
  rw [hsum, hdat, inventoryData_idem, normInventory, setField_setField]

theorem normalize_idem_of_title (x : JSON)
    (hx : routeOf x = some "todo" → truthyJ (optGet (optGet x "data") "title") = true) :
    normalizeRouteResponse (normalizeRouteResponse x) = normalizeRouteResponse x := by
  cases hr : routeOf x with
  | none => rw [normalize_eq_self_none x hr, normalize_eq_self_none x hr]
  | some s =>
    obtain ⟨fs, hfs⟩ := routeOf_jobj _ _ hr
    subst hfs
    by_cases h1 : s = "finance"
    · subst h1
      have hr2 : routeOf (normFinance (.jobj fs)) = some "finance" := by
        rw [← normalize_eq_finance _ hr, routeOf_normalize, hr]
      rw [normalize_eq_finance _ hr, normalize_eq_finance _ hr2, normFinance_idem]
    · by_cases h2 : s = "todo"
      · subst h2
        have hr2 : routeOf (normTodo (.jobj fs)) = some "todo" := by
          rw [← normalize_eq_todo _ hr, routeOf_normalize, hr]
        rw [normalize_eq_todo _ hr, normalize_eq_todo _ hr2, normTodo_idem _ (hx hr)]
      · by_cases h3 : s = "inventory"
        · subst h3
          have hr2 : routeOf (normInventory (.jobj fs)) = some "inventory" := by
            rw [← normalize_eq_inventory _ hr, routeOf_normalize, hr]
          rw [normalize_eq_inventory _ hr, normalize_eq_inventory _ hr2, normInventory_idem]
        · rw [normalize_eq_self_other _ _ hr h1 h2 h3, normalize_eq_self_other _ _ hr h1 h2 h3]

theorem nanFreeF_setF (acc : List (String × JSON)) (k : String) (v : JSON)
    (ha : nanFreeF acc = true) (hv : nanFree v = true) :
    nanFreeF (setF acc k v) = true := by
  induction acc with
  | nil => simp [setF, nanFreeF, hv]
  | cons kv rest ih =>
    obtain ⟨k0, v0⟩ := kv
    rw [nanFreeF, Bool.and_eq_true] at ha
    by_cases h : k0 = k
    · simp [setF, h, nanFreeF, hv, ha.2]
    · simp only [setF, if_neg h, nanFreeF, Bool.and_eq_true]
      exact ⟨ha.1, ih ha.2⟩

theorem nanFreeL_append (xs ys : List JSON) :
    nanFreeL (xs ++ ys) = (nanFreeL xs && nanFreeL ys) := by
  induction xs with
  | nil => simp [nanFreeL]
  | cons v rest ih => simp [nanFreeL, ih, Bool.and_assoc]

theorem nanFreeL_reverse (xs : List JSON) : nanFreeL xs.reverse = nanFreeL xs := by
  induction xs with
  | nil => rfl
  | cons v rest ih =>
    simp [List.reverse_cons, nanFreeL_append, nanFreeL, ih, Bool.and_comm]

theorem nanFree_lookupF (fs : List (String × JSON)) (k : String)
    (h : nanFreeF fs = true) : nanFree (lookupF fs k) = true := by
  induction fs with
  | nil => rfl
  | cons kv rest ih =>
    obtain ⟨k0, v0⟩ := kv
    rw [nanFreeF, Bool.and_eq_true] at h
    by_cases he : k0 = k
    · simp [lookupF, he, h.1]
    · simp [lookupF, he, ih h.2]

theorem nanFree_optGet (v : JSON) (k : String) (h : nanFree v = true) :
    nanFree (optGet v k) = true := by
  cases v with
  | jobj fs => exact nanFree_lookupF fs k h
  | jnull => rfl
  | jundefined => rfl
  | jbool b => rfl
  | jnum x => rfl
  | jstr s => rfl
  | jarr xs => rfl

theorem nanFree_not_nan_field (v : JSON) (k : String) (h : nanFree v = true) :
    ¬ optGet v k = .jnum .nan := by
  intro he
  have h2 := nanFree_optGet v k h
  rw [he] at h2
  exact absurd h2 (by decide)

theorem parser_nanFree (fuel : Nat) :
    (∀ cs v rest, parseJVal fuel cs = some (v, rest) → nanFree v = true) ∧
    (∀ acc cs v rest, nanFreeF acc = true → parseJObjRest fuel acc cs = some (v, rest) →
      nanFree v = true) ∧
    (∀ acc cs v rest, nanFreeL acc = true → parseJArrRest fuel acc cs = some (v, rest) →
      nanFree v = true) := by
  induction fuel with
  | zero =>
    refine ⟨?_, ?_, ?_⟩ <;> intros a b c <;> intros <;>
      simp [parseJVal, parseJObjRest, parseJArrRest] at *
  | succ f ih =>
    obtain ⟨ihv, iho, iha⟩ := ih
    refine ⟨?_, ?_, ?_⟩
    · intro cs v rest h
      rw [parseJVal] at h
      cases hws : skipWsL cs with
      | nil => rw [hws] at h; exact absurd h (by simp)
      | cons c rest0 =>
        rw [hws] at h
        dsimp only at h
        by_cases h1 : c = braceL
        · rw [if_pos h1] at h
          cases hws2 : skipWsL rest0 with
          | nil => rw [hws2] at h; exact absurd h (by simp)
          | cons c2 rest2 =>
            rw [hws2] at h; dsimp only at h
            by_cases h2 : c2 = braceR
            · rw [if_pos h2] at h
              injection h with h3
              injection h3 with hveq hreq
              subst hveq
              rfl
            · rw [if_neg h2] at h
              exact iho [] _ _ _ rfl h
        · rw [if_neg h1] at h
          by_cases h2 : c = '['
          · rw [if_pos h2] at h
            cases hws2 : skipWsL rest0 with
            | nil => rw [hws2] at h; exact absurd h (by simp)
            | cons c2 rest2 =>
              rw [hws2] at h; dsimp only at h
              by_cases h3 : c2 = ']'
              · rw [if_pos h3] at h
                injection h with h4
                injection h4 with hveq hreq
                subst hveq
                rfl
              · rw [if_neg h3] at h
                exact iha [] _ _ _ rfl h
          · rw [if_neg h2] at h
            by_cases h3 : c = quoteChar
            · rw [if_pos h3] at h
              cases hsb : parseJStrBody (rest0.length + 1) [] rest0 with
              | none => rw [hsb] at h; exact absurd h (by simp)
              | some scs =>
                obtain ⟨s, cs2⟩ := scs
                rw [hsb] at h; dsimp only at h
                injection h with h4
                injection h4 with hveq hreq
                subst hveq
                rfl
            · rw [if_neg h3] at h
              by_cases h4 : c = 't'
              · rw [if_pos h4] at h
                by_cases h5 : matchesAt (c :: rest0) "true".data = true
                · rw [if_pos h5] at h
                  injection h with h6
                  injection h6 with hveq hreq
                  subst hveq
                  rfl
                · rw [if_neg h5] at h; exact absurd h (by simp)
              · rw [if_neg h4] at h
                by_cases h5 : c = 'f'
                · rw [if_pos h5] at h
                  by_cases h6 : matchesAt (c :: rest0) "false".data = true
                  · rw [if_pos h6] at h
                    injection h with h7
                    injection h7 with hveq hreq
                    subst hveq
                    rfl
                  · rw [if_neg h6] at h; exact absurd h (by simp)
                · rw [if_neg h5] at h
                  by_cases h6 : c = 'n'
                  · rw [if_pos h6] at h
                    by_cases h7 : matchesAt (c :: rest0) "null".data = true
                    · rw [if_pos h7] at h
                      injection h with h8
                      injection h8 with hveq hreq
                      subst hveq
                      rfl
                    · rw [if_neg h7] at h; exact absurd h (by simp)
                  · rw [if_neg h6] at h
                    cases hn : parseJNum (c :: rest0) with
                    | none => rw [hn] at h; exact absurd h (by simp)
                    | some nr =>
                      obtain ⟨n, r⟩ := nr
                      rw [hn] at h; dsimp only at h
                      injection h with h7
                      injection h7 with hveq hreq
                      subst hveq
                      rfl
    · intro acc cs v rest hacc h
      cases cs with
      | nil => rw [parseJObjRest] at h; exact absurd h (by simp)
      | cons c rest0 =>
        rw [parseJObjRest] at h
        by_cases hq : c = quoteChar
        · rw [if_pos hq] at h
          cases hsb : parseJStrBody (rest0.length + 1) [] rest0 with
          | none => rw [hsb] at h; exact absurd h (by simp)
          | some kcs =>
            obtain ⟨k, cs2⟩ := kcs
            rw [hsb] at h; dsimp only at h
            cases hsk : skipWsL cs2 with
            | nil => rw [hsk] at h; exact absurd h (by simp)
            | cons ch cs3 =>
              rw [hsk] at h; dsimp only at h
              by_cases hcolon : ch = ':'
              · rw [if_pos hcolon] at h
                cases hv2 : parseJVal f cs3 with
                | none => rw [hv2] at h; exact absurd h (by simp)
                | some vcs =>
                  obtain ⟨v2, cs4⟩ := vcs
                  rw [hv2] at h; dsimp only at h
                  have hacc2 : nanFreeF (setF acc k v2) = true :=
                    nanFreeF_setF _ _ _ hacc (ihv _ _ _ hv2)
                  cases hsk2 : skipWsL cs4 with
                  | nil => rw [hsk2] at h; exact absurd h (by simp)
                  | cons ch2 cs5 =>
                    rw [hsk2] at h; dsimp only at h
                    by_cases hbr : ch2 = braceR
                    · rw [if_pos hbr] at h
                      injection h with h1
                      injection h1 with hveq hreq
                      subst hveq
                      exact hacc2
                    · rw [if_neg hbr] at h
                      by_cases hcomma : ch2 = ','
                      · rw [if_pos hcomma] at h
                        exact iho _ _ _ _ hacc2 h
                      · rw [if_neg hcomma] at h; exact absurd h (by simp)
              · rw [if_neg hcolon] at h; exact absurd h (by simp)
        · rw [if_neg hq] at h; exact absurd h (by simp)
    · intro acc cs v rest hacc h
      rw [parseJArrRest] at h
      cases hv2 : parseJVal f cs with
      | none => rw [hv2] at h; exact absurd h (by simp)
      | some vcs =>
        obtain ⟨v2, cs2⟩ := vcs
        rw [hv2] at h; dsimp only at h
        have hvf : nanFree v2 = true := ihv _ _ _ hv2
        cases hsk : skipWsL cs2 with
        | nil => rw [hsk] at h; exact absurd h (by simp)
        | cons ch cs3 =>
          rw [hsk] at h; dsimp only at h
          by_cases hbr : ch = ']'
          · rw [if_pos hbr] at h
            injection h with h1
            injection h1 with hveq hreq
            subst hveq
            show nanFreeL (v2 :: acc).reverse = true
            rw [nanFreeL_reverse]
            show (nanFree v2 && nanFreeL acc) = true
            rw [hvf, hacc]
            rfl
          · rw [if_neg hbr] at h
            by_cases hcomma : ch = ','
            · rw [if_pos hcomma] at h
              refine iha _ _ _ _ ?_ h
              show (nanFree v2 && nanFreeL acc) = true
              rw [hvf, hacc]
              rfl
            · rw [if_neg hcomma] at h; exact absurd h (by simp)

theorem jsonParse_nanFree (s : String) (v : JSON) (h : jsonParse s = some v) :
    nanFree v = true := by
  unfold jsonParse at h
  cases hp : parseJVal (2 * s.length + 4) s.data with
  | none => rw [hp] at h; exact absurd h (by simp)
  | some vr =>
    obtain ⟨v2, rest⟩ := vr
    rw [hp] at h
    dsimp only at h
    split at h
    · injection h with hveq
      subst hveq
      exact (parser_nanFree _).1 _ _ _ hp
    · exact absurd h (by simp)

theorem extract_shape (t : String) (v : JSON) (h : extractRouteFromText t = some v) :
    ∃ rt conf summ dat,
      v = .jobj [("route_type", .jstr rt), ("confidence", .jnum (.fin conf)),
                 ("summary", .jstr summ), ("data", dat)] := by
  unfold extractRouteFromText at h
  dsimp only at h
  cases hw : scanFor matchRouteAt t.data with
  | none => rw [hw] at h; exact absurd h (by simp)
  | some rt =>
    rw [hw] at h
    dsimp only at h
    injection h with hveq
    cases hc : (match scanFor (matchNumCaptureAt "confidence".data) t.data with
        | some cap => jsCapNumber cap
        | none => JsNumber.fin ⟨5, 1⟩) with
    | fin q =>
      rw [hc] at hveq
      exact ⟨rt, q, _, _, hveq.symm⟩
    | nan =>
      rw [hc] at hveq
      exact ⟨rt, ⟨5, 1⟩, _, _, hveq.symm⟩

theorem parseTier3_ok (r : String) (v : JSON) (h : parseTier3 r = .ok v) :
    extractRouteFromText (cleanModelText r) = some v := by
  unfold parseTier3 at h
  cases he : extractRouteFromText (cleanModelText r) with
  | none => rw [he] at h; exact absurd h (by simp)
  | some w =>
    rw [he] at h
    dsimp only at h
    injection h with hveq
    rw [hveq]

theorem parseTiers_ok_cases (r : String) (v : JSON) (h : parseTiers r = .ok v) :
    (∃ s, jsonParse s = some v) ∨ extractRouteFromText (cleanModelText r) = some v := by
  have h23 : ∀ (hh : parseTiers23 r = .ok v),
      (∃ s, jsonParse s = some v) ∨ extractRouteFromText (cleanModelText r) = some v := by
    intro hh
    unfold parseTiers23 at hh
    cases hb : braceSpan (cleanModelText r).data with
    | none => rw [hb] at hh; exact Or.inr (parseTier3_ok r v hh)
    | some span =>
      rw [hb] at hh
      dsimp only at hh
      cases hjp : jsonParse (String.mk span) with
      | some w =>
        rw [hjp] at hh
        dsimp only at hh
        injection hh with hveq
        subst hveq
        exact Or.inl ⟨_, hjp⟩
      | none =>
        rw [hjp] at hh
        exact Or.inr (parseTier3_ok r v hh)
  unfold parseTiers at h
  dsimp only at h
  split at h
  · cases hjp : jsonParse (cleanModelText r) with
    | some w =>
      rw [hjp] at h
      dsimp only at h
      injection h with hveq
      subst hveq
      exact Or.inl ⟨_, hjp⟩
    | none =>
      rw [hjp] at h
      exact h23 h
  · exact h23 h

theorem parseTiers_conf_not_nan (r : String) (v : JSON) (h : parseTiers r = .ok v) :
    ¬ optGet v "confidence" = .jnum .nan := by
  rcases parseTiers_ok_cases r v h with ⟨s, hjp⟩ | hex
  · exact nanFree_not_nan_field _ _ (jsonParse_nanFree _ _ hjp)
  · obtain ⟨rt, conf, summ, dat, hv⟩ := extract_shape _ _ hex
    subst hv
    intro he
    rw [show optGet (JSON.jobj [("route_type", JSON.jstr rt), ("confidence", .jnum (.fin conf)),
      ("summary", JSON.jstr summ), ("data", dat)]) "confidence" = .jnum (.fin conf) from rfl] at he
    exact absurd he (by simp)

theorem validateStructure_ok (p q : JSON) (h : validateStructure p = .ok q) :
    q = p ∧ truthyJ (optGet p "route_type") = true ∧ truthyJ (optGet p "summary") = true := by
  unfold validateStructure at h
  split at h
  · exact absurd h (by simp)
  · next hcond =>
    push_neg at hcond
    injection h with hq
    exact ⟨hq.symm, hcond.1, hcond.2⟩

theorem coerceRoute_routeFact (fs : List (String × JSON)) :
    ∃ s, routeOf (coerceRoute (.jobj fs)) = some s ∧
      (s = "finance" ∨ s = "todo" ∨ s = "inventory" ∨ s = "unknown") := by
  have hunk : routeOf (setField (.jobj fs) "route_type" (.jstr "unknown")) = some "unknown" := by
    unfold routeOf
    rw [optGet_setField_self]
  unfold coerceRoute
  cases hroute : optGet (.jobj fs) "route_type" with
  | jstr s =>
    dsimp only
    by_cases hmem : legalRoutes.contains s = true
    · rw [if_pos hmem]
      refine ⟨s, ?_, ?_⟩
      · unfold routeOf
        rw [hroute]
      · have := List.mem_of_elem_eq_true hmem
        simp only [legalRoutes, List.mem_cons, List.not_mem_nil, or_false] at this
        tauto
    · rw [if_neg hmem]
      exact ⟨"unknown", hunk, by tauto⟩
  | jnull => exact ⟨"unknown", hunk, by tauto⟩
  | jundefined => exact ⟨"unknown", hunk, by tauto⟩
  | jbool b => exact ⟨"unknown", hunk, by tauto⟩
  | jnum x => exact ⟨"unknown", hunk, by tauto⟩
  | jarr xs => exact ⟨"unknown", hunk, by tauto⟩
  | jobj gs => exact ⟨"unknown", hunk, by tauto⟩

theorem coerceRoute_jobj (fs : List (String × JSON)) :
    ∃ gs, coerceRoute (.jobj fs) = .jobj gs := by
  unfold coerceRoute
  cases optGet (.jobj fs) "route_type" with
  | jstr s =>
    dsimp only
    by_cases hmem : legalRoutes.contains s = true
    · rw [if_pos hmem]; exact ⟨fs, rfl⟩
    · rw [if_neg hmem]; exact ⟨_, rfl⟩
  | jnull => exact ⟨_, rfl⟩
  | jundefined => exact ⟨_, rfl⟩
  | jbool b => exact ⟨_, rfl⟩
  | jnum x => exact ⟨_, rfl⟩
  | jarr xs => exact ⟨_, rfl⟩
  | jobj gs => exact ⟨_, rfl⟩

theorem coerceRoute_conf (fs : List (String × JSON)) :
    optGet (coerceRoute (.jobj fs)) "confidence" = optGet (.jobj fs) "confidence" := by
  have hset : optGet (setField (.jobj fs) "route_type" (.jstr "unknown")) "confidence" =
      optGet (.jobj fs) "confidence" := by
    rw [optGet_setField_ne _ _ _ _ (by decide)]
    rfl
  unfold coerceRoute
  cases optGet (.jobj fs) "route_type" with
  | jstr s =>
    dsimp only
    by_cases hmem : legalRoutes.contains s = true
    · rw [if_pos hmem]
    · rw [if_neg hmem]
      exact hset
  | jnull => exact hset
  | jundefined => exact hset
  | jbool b => exact hset
  | jnum x => exact hset
  | jarr xs => exact hset
  | jobj gs => exact hset

theorem routeOf_setField_conf (fs : List (String × JSON)) (v : JSON) :
    routeOf (setField (.jobj fs) "confidence" v) = routeOf (.jobj fs) := by
  unfold routeOf
  rw [optGet_setField_ne _ _ _ _ (by decide)]
  rfl

theorem coerceConfidence_route (fs : List (String × JSON)) :
    routeOf (coerceConfidence (.jobj fs)) = routeOf (.jobj fs) := by
  unfold coerceConfidence
  cases optGet (.jobj fs) "confidence" with
  | jnum x =>
    dsimp only
    split
    · rw [routeOf_setField_conf]
    · rfl
  | jnull => rw [routeOf_setField_conf]
  | jundefined => rw [routeOf_setField_conf]
  | jbool b => rw [routeOf_setField_conf]
  | jstr s => rw [routeOf_setField_conf]
  | jarr xs => rw [routeOf_setField_conf]
  | jobj gs => rw [routeOf_setField_conf]

theorem coerceConfidence_jobj (fs : List (String × JSON)) :
    ∃ gs, coerceConfidence (.jobj fs) = .jobj gs := by
  unfold coerceConfidence
  cases optGet (.jobj fs) "confidence" with
  | jnum x =>
    dsimp only
    split
    · exact ⟨_, rfl⟩
    · exact ⟨fs, rfl⟩
  | jnull => exact ⟨_, rfl⟩
  | jundefined => exact ⟨_, rfl⟩
  | jbool b => exact ⟨_, rfl⟩
  | jstr s => exact ⟨_, rfl⟩
  | jarr xs => exact ⟨_, rfl⟩
  | jobj gs => exact ⟨_, rfl⟩

theorem coerceConfidence_conf (fs : List (String × JSON))
    (hnan : ¬ optGet (.jobj fs) "confidence" = .jnum .nan) :
    ∃ q, optGet (coerceConfidence (.jobj fs)) "confidence" = .jnum (.fin q) ∧
      0 ≤ toRat q ∧ toRat q ≤ 1 := by
  have hhalf : (0 : ℚ) ≤ toRat ⟨5, 1⟩ ∧ toRat ⟨5, 1⟩ ≤ 1 := by
    rw [toRat_half]; norm_num
  unfold coerceConfidence
  cases hv : optGet (.jobj fs) "confidence" with
  | jnum x =>
    cases x with
    | nan => exact absurd hv hnan
    | fin q =>
      dsimp only
      by_cases hc : (jsLtNum (.fin q) (.fin ⟨0, 0⟩) = true ∨ jsLtNum (.fin ⟨1, 0⟩) (.fin q) = true)
      · rw [if_pos hc, optGet_setField_self]
        exact ⟨⟨5, 1⟩, rfl, hhalf.1, hhalf.2⟩
      · rw [if_neg hc]
        push_neg at hc
        refine ⟨q, hv, ?_, ?_⟩
        · have h0 : ¬ jnumLt q ⟨0, 0⟩ = true := by
            intro hb; exact absurd (show jsLtNum (.fin q) (.fin ⟨0, 0⟩) = true from hb) hc.1
          rw [jnumLt_iff, toRat_int] at h0
          push_neg at h0
          exact_mod_cast h0
        · have h1 : ¬ jnumLt ⟨1, 0⟩ q = true := by
            intro hb; exact absurd (show jsLtNum (.fin ⟨1, 0⟩) (.fin q) = true from hb) hc.2
          rw [jnumLt_iff, toRat_int] at h1
          push_neg at h1
          exact_mod_cast h1
  | jnull => rw [optGet_setField_self]; exact ⟨⟨5, 1⟩, rfl, hhalf.1, hhalf.2⟩
  | jundefined => rw [optGet_setField_self]; exact ⟨⟨5, 1⟩, rfl, hhalf.1, hhalf.2⟩
  | jbool b => rw [optGet_setField_self]; exact ⟨⟨5, 1⟩, rfl, hhalf.1, hhalf.2⟩
  | jstr s => rw [optGet_setField_self]; exact ⟨⟨5, 1⟩, rfl, hhalf.1, hhalf.2⟩
  | jarr xs => rw [optGet_setField_self]; exact ⟨⟨5, 1⟩, rfl, hhalf.1, hhalf.2⟩
  | jobj gs => rw [optGet_setField_self]; exact ⟨⟨5, 1⟩, rfl, hhalf.1, hhalf.2⟩

theorem routeAttempt_ok (r : String) (v : JSON) (h : routeAttempt r = .ok v) :
    (∃ gs, v = .jobj gs) ∧
    (∃ s, routeOf v = some s ∧ (s = "finance" ∨ s = "todo" ∨ s = "inventory" ∨ s = "unknown")) ∧
    (∃ q, optGet v "confidence" = .jnum (.fin q) ∧ 0 ≤ toRat q ∧ toRat q ≤ 1) := by
  unfold routeAttempt at h
  cases hp : parseTiers r with
  | error e => rw [hp] at h; exact absurd h (by simp)
  | ok parsed =>
    rw [hp] at h
    dsimp only at h
    cases hvs : validateStructure parsed with
    | error e => rw [hvs] at h; exact absurd h (by simp)
    | ok p =>
      rw [hvs] at h
      dsimp only at h
      injection h with hveq
      subst hveq
      obtain ⟨hpq, hroute, hsum⟩ := validateStructure_ok parsed p hvs
      subst hpq
      obtain ⟨fs, hfs⟩ := truthy_optGet_jobj _ _ hroute
      subst hfs
      obtain ⟨gs1, hg1⟩ := coerceRoute_jobj fs
      obtain ⟨s, hs, hsmem⟩ := coerceRoute_routeFact fs
      have hnan : ¬ optGet (JSON.jobj fs) "confidence" = .jnum .nan :=
        parseTiers_conf_not_nan r _ hp
      have hnan2 : ¬ optGet (coerceRoute (.jobj fs)) "confidence" = .jnum .nan := by
        rw [coerceRoute_conf]
        exact hnan
      rw [hg1] at hnan2 hs
      obtain ⟨gs2, hg2⟩ := coerceConfidence_jobj gs1
      refine ⟨⟨gs2, by rw [hg1, hg2]⟩, ⟨s, ?_, hsmem⟩, ?_⟩
      · rw [hg1, coerceConfidence_route, hs]
      · obtain ⟨q, hq, h0, h1⟩ := coerceConfidence_conf gs1 hnan2
        exact ⟨q, by rw [hg1]; exact hq, h0, h1⟩

theorem inferRoute_facts (c : String) (g : JSON) (h : inferRouteFromText c = some g) :
    (∃ s, routeOf g = some s ∧ (s = "inventory" ∨ s = "finance" ∨ s = "todo")) ∧
    optGet g "confidence" = .jnum (.fin ⟨4, 1⟩) := by
  unfold inferRouteFromText at h
  dsimp only at h
  split at h
  · exact absurd h (by simp)
  · split at h
    · injection h with hveq
      subst hveq
      exact ⟨⟨"inventory", rfl, by tauto⟩, rfl⟩
    · split at h
      · injection h with hveq
        subst hveq
        exact ⟨⟨"finance", rfl, by tauto⟩, rfl⟩
      · split at h
        · injection h with hveq
          subst hveq
          exact ⟨⟨"todo", rfl, by tauto⟩, rfl⟩
        · exact absurd h (by simp)

theorem normalized_attempt_facts (r : String) (parsed2 : JSON)
    (hra : routeAttempt r = .ok parsed2) :
    (∃ s, routeOf (normalizeRouteResponse parsed2) = some s ∧
      (s = "finance" ∨ s = "todo" ∨ s = "inventory" ∨ s = "unknown")) ∧
    (∃ q, optGet (normalizeRouteResponse parsed2) "confidence" = .jnum (.fin q) ∧
      0 ≤ toRat q ∧ toRat q ≤ 1) ∧
    (∀ s, routeOf (normalizeRouteResponse parsed2) = some s →
      s = "finance" ∨ s = "todo" ∨ s = "inventory" →
      shapedFor s (optGet (normalizeRouteResponse parsed2) "data")) := by
  obtain ⟨⟨gs, hgs⟩, ⟨s, hs, hsmem⟩, ⟨q, hq, h0, h1⟩⟩ := routeAttempt_ok r parsed2 hra
  refine ⟨⟨s, by rw [routeOf_normalize]; exact hs, hsmem⟩,
    ⟨q, by rw [conf_normalize]; exact hq, h0, h1⟩, ?_⟩
  intro s2 hs2 hmem3
  rw [routeOf_normalize] at hs2
  exact normalize_shaped parsed2 s2 hs2 hmem3

theorem attemptResult_ok (content r : String) (v : JSON) (h : attemptResult content r = .ok v) :
    (∃ s, routeOf v = some s ∧ (s = "finance" ∨ s = "todo" ∨ s = "inventory" ∨ s = "unknown")) ∧
    (∃ q, optGet v "confidence" = .jnum (.fin q) ∧ 0 ≤ toRat q ∧ toRat q ≤ 1) ∧
    (∀ s, routeOf v = some s → s = "finance" ∨ s = "todo" ∨ s = "inventory" →
      shapedFor s (optGet v "data")) := by
  unfold attemptResult at h
  cases hra : routeAttempt r with
  | error e => rw [hra] at h; exact absurd h (by simp)
  | ok parsed2 =>
    rw [hra] at h
    dsimp only at h
    split at h
    · cases hh : inferRouteFromText content with
      | some g =>
        rw [hh] at h
        injection h with hveq
        subst hveq
        obtain ⟨⟨s0, hs0, hmem3⟩, hconf⟩ := inferRoute_facts content g hh
        have hroute : routeOf (normalizeRouteResponse g) = some s0 := by
          rw [routeOf_normalize]; exact hs0
        refine ⟨⟨s0, hroute, by tauto⟩, ?_, ?_⟩
        · refine ⟨⟨4, 1⟩, by rw [conf_normalize]; exact hconf, ?_, ?_⟩ <;>
            · rw [show toRat ⟨4, 1⟩ = 2 / 5 by norm_num [toRat]]
              norm_num
        · intro s2 hs2 hm3
          rw [routeOf_normalize] at hs2
          exact normalize_shaped g s2 hs2 hm3
      | none =>
        rw [hh] at h
        injection h with hveq
        subst hveq
        exact normalized_attempt_facts r parsed2 hra
    · injection h with hveq
      subst hveq
      exact normalized_attempt_facts r parsed2 hra

theorem finalFailure_facts (le : Option String) :
    (∃ s, routeOf (finalFailure le) = some s ∧
      (s = "finance" ∨ s = "todo" ∨ s = "inventory" ∨ s = "unknown")) ∧
    (∃ q, optGet (finalFailure le) "confidence" = .jnum (.fin q) ∧
      0 ≤ toRat q ∧ toRat q ≤ 1) ∧
    (∀ s, routeOf (finalFailure le) = some s →
      s = "finance" ∨ s = "todo" ∨ s = "inventory" →
      shapedFor s (optGet (finalFailure le) "data")) := by
  refine ⟨⟨"unknown", rfl, by tauto⟩,
    ⟨⟨0, 0⟩, rfl, by rw [toRat_int]; norm_num, by rw [toRat_int]; norm_num⟩, ?_⟩
  intro s hs hmem
  rw [show routeOf (finalFailure le) = some "unknown" from rfl] at hs
  injection hs with h3
  subst h3
  rcases hmem with h | h | h <;> exact absurd h (by decide)

theorem routeContentLoop_facts (content : String) (fuel : Nat) :
    ∀ (outs : List AttemptOutcome) (le : Option String),
    (∃ s, routeOf (routeContentLoop content fuel outs le).1 = some s ∧
      (s = "finance" ∨ s = "todo" ∨ s = "inventory" ∨ s = "unknown")) ∧
    (∃ q, optGet (routeContentLoop content fuel outs le).1 "confidence" = .jnum (.fin q) ∧
      0 ≤ toRat q ∧ toRat q ≤ 1) ∧
    (∀ s, routeOf (routeContentLoop content fuel outs le).1 = some s →
      s = "finance" ∨ s = "todo" ∨ s = "inventory" →
      shapedFor s (optGet (routeContentLoop content fuel outs le).1 "data")) := by
  induction fuel with
  | zero => intro outs le; exact finalFailure_facts le
  | succ f ih =>
    intro outs le
    cases outs with
    | nil => exact finalFailure_facts le
    | cons o rest =>
      cases o with
      | transport e => exact ih rest (some e)
      | reply t =>
        cases har : attemptResult content t with
        | ok v =>
          have hred : routeContentLoop content (f + 1) (AttemptOutcome.reply t :: rest) le =
              (v, 1) := by
            rw [routeContentLoop]
            dsimp only
            rw [har]
          rw [hred]
          exact attemptResult_ok content t v har
        | error e =>
          have hred : routeContentLoop content (f + 1) (AttemptOutcome.reply t :: rest) le =
              ((routeContentLoop content f rest (some e)).1,
               (routeContentLoop content f rest (some e)).2 + 1) := by
            rw [routeContentLoop]
            dsimp only
            rw [har]
          rw [hred]
          exact ih rest (some e)

theorem batchAttemptItems_shape (o : AttemptOutcome) (elem : JSON)
    (hmem : elem ∈ batchAttemptItems o) :
    ∀ s, routeOf elem = some s → s = "finance" ∨ s = "todo" ∨ s = "inventory" →
      shapedFor s (optGet elem "data") := by
  intro s hs hm
  cases o with
  | transport e => exact absurd hmem (by simp [batchAttemptItems])
  | reply t =>
    unfold batchAttemptItems at hmem
    dsimp only at hmem
    cases hjp : jsonParse (cleanModelText t) with
    | none => rw [hjp] at hmem; exact absurd hmem (by simp)
    | some parsed =>
      rw [hjp] at hmem
      dsimp only at hmem
      rw [List.mem_map] at hmem
      obtain ⟨it, hit, hel⟩ := hmem
      subst hel
      rw [routeOf_normalize] at hs
      exact normalize_shaped it s hs hm

theorem batchLoop_mem (fuel : Nat) (bo : List AttemptOutcome) (items : List JSON)
    (h : batchLoop fuel bo = some items) :
    ∃ o, o ∈ bo ∧ items = batchAttemptItems o ∧ ¬ items = [] := by
  induction fuel generalizing bo with
  | zero => exact absurd h (by simp [batchLoop])
  | succ f ih =>
    cases bo with
    | nil => exact absurd h (by simp [batchLoop])
    | cons o rest =>
      rw [batchLoop] at h
      by_cases he : (batchAttemptItems o).isEmpty = true
      · rw [if_pos he] at h
        obtain ⟨o2, ho2, heq, hne⟩ := ih rest h
        exact ⟨o2, by simp [ho2], heq, hne⟩
      · rw [if_neg he] at h
        injection h with hi
        refine ⟨o, by simp, hi.symm, ?_⟩
        subst hi
        intro hnil
        rw [hnil] at he
        exact he rfl

theorem batchLoop_none_of_empty (fuel : Nat) (bo : List AttemptOutcome)
    (h : ∀ o ∈ bo.take fuel, batchAttemptItems o = []) :
    batchLoop fuel bo = none := by
  induction fuel generalizing bo with
  | zero => rfl
  | succ f ih =>
    cases bo with
    | nil => rfl
    | cons o rest =>
      rw [batchLoop]
      have ho : batchAttemptItems o = [] := h o (by simp)
      rw [if_pos (by rw [ho]; rfl)]
      exact ih rest (fun o2 hmem => h o2 (by simp [hmem]))

theorem routeContentLoop_step_fail (content : String) (fuel : Nat) (o : AttemptOutcome)
    (rest : List AttemptOutcome) (le : Option String) (e : String)
    (h : outcomeError content o = some e) :
    routeContentLoop content (fuel + 1) (o :: rest) le =
      ((routeContentLoop content fuel rest (some e)).1,
       (routeContentLoop content fuel rest (some e)).2 + 1) := by
  cases o with
  | transport e2 =>
    unfold outcomeError at h
    injection h with he
    subst he
    rw [routeContentLoop]
  | reply t =>
    unfold outcomeError at h
    dsimp only at h
    cases har : attemptResult content t with
    | ok v => rw [har] at h; exact absurd h (by simp)
    | error e2 =>
      rw [har] at h
      dsimp only at h
      injection h with he
      subst he
      rw [routeContentLoop]
      dsimp only
      rw [har]

theorem routeContentLoop_three_fail (content : String) (o1 o2 o3 : AttemptOutcome)
    (e1 e2 e3 : String)
    (h1 : outcomeError content o1 = some e1) (h2 : outcomeError content o2 = some e2)
    (h3 : outcomeError content o3 = some e3) :
    routeContentLoop content 3 [o1, o2, o3] none = (finalFailure (some e3), 3) := by
  rw [routeContentLoop_step_fail content 2 o1 [o2, o3] none e1 h1,
    routeContentLoop_step_fail content 1 o2 [o3] (some e1) e2 h2,
    routeContentLoop_step_fail content 0 o3 [] (some e2) e3 h3]
  rfl

theorem matchNumTokenAt_none (units : List Char) (cs : List Char)
    (h : ∀ c ∈ cs, isDig c = false) : matchNumTokenAt units cs = none := by
  cases cs with
  | nil => rfl
  | cons c rest =>
    unfold matchNumTokenAt
    dsimp only
    rw [if_neg]
    intro hd
    rw [h c (by simp)] at hd
    exact absurd hd (by simp)

theorem scanFor_num_none (units : List Char) (cs : List Char)
    (h : ∀ c ∈ cs, isDig c = false) :
    scanFor (matchNumTokenAt units) cs = none := by
  induction cs with
  | nil => rfl
  | cons c rest ih =>
    rw [scanFor]
    rw [matchNumTokenAt_none units (c :: rest) h]
    exact ih (fun c2 hm => h c2 (by simp [hm]))

theorem processVoiceInput_empty (t : String) (outs : List AttemptOutcome)
    (h : trimS t = "") :
    processVoiceInput (.ok t) outs = (emptyTranscriptionResult, 0) := by
  unfold processVoiceInput
  dsimp only
  rw [if_pos]
  right
  rw [h]
  rfl

/-- C1 counterexample: on the text 冰箱里还有两瓶牛奶, when the adapter
fails with a transport error on every attempt, `routeContent` returns
Unknown with confidence 0 and the connectivity summary — not the
heuristic's inventory guess the claim requires. -/
theorem claim_C1_counterexample :
    routeOf (routeContent "冰箱里还有两瓶牛奶" 2
      [.transport "网络连接失败", .transport "网络连接失败", .transport "网络连接失败"]) =
        some "unknown" ∧
    optGet (routeContent "冰箱里还有两瓶牛奶" 2
      [.transport "网络连接失败", .transport "网络连接失败", .transport "网络连接失败"])
        "confidence" = .jnum (.fin ⟨0, 0⟩) ∧
    optGet (routeContent "冰箱里还有两瓶牛奶" 2
      [.transport "网络连接失败", .transport "网络连接失败", .transport "网络连接失败"])
        "summary" = .jstr connectivityErrorSummary ∧
    ¬ routeOf (routeContent "冰箱里还有两瓶牛奶" 2
      [.transport "网络连接失败", .transport "网络连接失败", .transport "网络连接失败"]) =
        some "inventory" :=
  ⟨rfl, rfl, rfl, by decide⟩

/-- C1 (amended): exhausting every attempt on a transport failure returns
the connectivity Unknown result — the heuristic fallback never runs on
transport failure.  The heuristic is consulted only when an attempt parses
with an unknown route or low confidence; in that case, for
冰箱里还有两瓶牛奶 the normalized heuristic guess is inventory with
confidence 0.4, storage zone Fridge, name = the summary, but quantity 1
and unit 个, because the quantity regex matches only ASCII digits and
两瓶 contains none. -/
theorem claim_C1 :
    (routeContent "冰箱里还有两瓶牛奶" 2
      [.transport "网络连接失败", .transport "网络连接失败", .transport "网络连接失败"] =
        finalFailure (some "网络连接失败")) ∧
    optGet (finalFailure (some "网络连接失败")) "summary" = .jstr connectivityErrorSummary ∧
    (routeOf (routeContent "冰箱里还有两瓶牛奶" 2
      [.reply "\x7b\"route_type\":\"unknown\",\"confidence\":0.9,\"summary\":\"?\"\x7d"]) =
        some "inventory") ∧
    optGet (routeContent "冰箱里还有两瓶牛奶" 2
      [.reply "\x7b\"route_type\":\"unknown\",\"confidence\":0.9,\"summary\":\"?\"\x7d"])
        "confidence" = .jnum (.fin ⟨4, 1⟩) ∧
    optGet (optGet (routeContent "冰箱里还有两瓶牛奶" 2
      [.reply "\x7b\"route_type\":\"unknown\",\"confidence\":0.9,\"summary\":\"?\"\x7d"]) "data")
        "storage_zone" = .jstr "Fridge" ∧
    optGet (optGet (routeContent "冰箱里还有两瓶牛奶" 2
      [.reply "\x7b\"route_type\":\"unknown\",\"confidence\":0.9,\"summary\":\"?\"\x7d"]) "data")
        "quantity" = .jnum (.fin ⟨1, 0⟩) ∧
    optGet (optGet (routeContent "冰箱里还有两瓶牛奶" 2
      [.reply "\x7b\"route_type\":\"unknown\",\"confidence\":0.9,\"summary\":\"?\"\x7d"]) "data")
        "unit" = .jstr "个" ∧
    optGet (optGet (routeContent "冰箱里还有两瓶牛奶" 2
      [.reply "\x7b\"route_type\":\"unknown\",\"confidence\":0.9,\"summary\":\"?\"\x7d"]) "data")
        "name" = .jstr "冰箱里还有两瓶牛奶" :=
  ⟨rfl, rfl, rfl, rfl, rfl, rfl, rfl, rfl⟩

/-- C2 counterexample: a successfully parsed reply with route unknown and a
non-null data object is returned with its payload untouched, so payload is
not none although the route is Unknown; and a batch element with an
unrecognized route string keeps route ≠ unknown with an absent payload. -/
theorem claim_C2_counterexample :
    routeOf (routeContent "abc" 2
      [.reply "\x7b\"route_type\":\"unknown\",\"confidence\":0.9,\"summary\":\"x\",\"data\":\x7b\"amount\":5\x7d\x7d"]) =
        some "unknown" ∧
    optGet (routeContent "abc" 2
      [.reply "\x7b\"route_type\":\"unknown\",\"confidence\":0.9,\"summary\":\"x\",\"data\":\x7b\"amount\":5\x7d\x7d"])
        "data" = .jobj [("amount", .jnum (.fin ⟨5, 0⟩))] ∧
    ¬ optGet (routeContent "abc" 2
      [.reply "\x7b\"route_type\":\"unknown\",\"confidence\":0.9,\"summary\":\"x\",\"data\":\x7b\"amount\":5\x7d\x7d"])
        "data" = .jnull ∧
    routeContentBatch "abc" 1 [.reply "\x7b\"route_type\":\"weird\",\"summary\":1\x7d"] [] =
      [.jobj [("route_type", .jstr "weird"), ("summary", .jnum (.fin ⟨1, 0⟩))]] ∧
    routeOf (.jobj [("route_type", .jstr "weird"), ("summary", .jnum (.fin ⟨1, 0⟩))]) =
      some "weird" ∧
    optGet (.jobj [("route_type", .jstr "weird"), ("summary", .jnum (.fin ⟨1, 0⟩))]) "data" =
      .jundefined := by
  refine ⟨rfl, rfl, ?_, rfl, rfl, rfl⟩
  intro h
  have h2 : (JSON.jobj [("amount", .jnum (.fin ⟨5, 0⟩))]) = JSON.jnull := h
  exact absurd h2 (by intro hh; cases hh)

/-- C2 (amended): every `routeContent` result carries one of the four legal
route strings, and whenever that route is finance, todo or inventory its
payload has exactly the declared shape with the documented defaults; the
same holds for every element `routeContentBatch` returns.  Unknown-routed
results, however, may keep a reply's payload instead of none. -/
theorem claim_C2 :
    (∀ (content : String) (mr : Nat) (outs : List AttemptOutcome),
      (∃ s, routeOf (routeContent content mr outs) = some s ∧
        (s = "finance" ∨ s = "todo" ∨ s = "inventory" ∨ s = "unknown")) ∧
      (∀ s, routeOf (routeContent content mr outs) = some s →
        s = "finance" ∨ s = "todo" ∨ s = "inventory" →
        shapedFor s (optGet (routeContent content mr outs) "data"))) ∧
    (∀ (content : String) (mr : Nat) (bo so : List AttemptOutcome) (elem : JSON),
      elem ∈ routeContentBatch content mr bo so →
      ∀ s, routeOf elem = some s → s = "finance" ∨ s = "todo" ∨ s = "inventory" →
      shapedFor s (optGet elem "data")) := by
  constructor
  · intro content mr outs
    obtain ⟨hroute, _, hshape⟩ := routeContentLoop_facts content (mr + 1) outs none
    exact ⟨hroute, hshape⟩
  · intro content mr bo so elem hmem s hs hm3
    unfold routeContentBatch at hmem
    cases hbl : batchLoop (mr + 1) bo with
    | some items =>
      rw [hbl] at hmem
      dsimp only at hmem
      obtain ⟨o, ho, heq, hne⟩ := batchLoop_mem _ _ _ hbl
      subst heq
      exact batchAttemptItems_shape o elem hmem s hs hm3
    | none =>
      rw [hbl] at hmem
      dsimp only at hmem
      rw [List.mem_singleton] at hmem
      subst hmem
      obtain ⟨_, _, hshape⟩ := routeContentLoop_facts content 3 so none
      exact hshape s hs hm3

/-- C2 witness: the shape guarantee evaluated on the finance result of a
concrete run. -/
theorem claim_C2_witness :
    routeOf (routeContent "abc" 2
      [.reply "\x7b\"route_type\":\"finance\",\"confidence\":0.9,\"summary\":\"x\",\"data\":\x7b\"amount\":2,\"category\":\"c\",\"description\":\"d\"\x7d\x7d"]) =
        some "finance" ∧
    shapedFor "finance" (optGet (routeContent "abc" 2
      [.reply "\x7b\"route_type\":\"finance\",\"confidence\":0.9,\"summary\":\"x\",\"data\":\x7b\"amount\":2,\"category\":\"c\",\"description\":\"d\"\x7d\x7d"])
        "data") :=
  ⟨by decide,
   (claim_C2.1 "abc" 2
     [.reply "\x7b\"route_type\":\"finance\",\"confidence\":0.9,\"summary\":\"x\",\"data\":\x7b\"amount\":2,\"category\":\"c\",\"description\":\"d\"\x7d\x7d"]).2
     "finance" (by decide) (by tauto)⟩

/-- C3 counterexample: a reply with confidence 1.5 yields confidence 0.5,
not the clamped value 1 the claim's wording requires
(`specClampConfidence` is the claim's clamp, modelled from the spec). -/
theorem claim_C3_counterexample :
    optGet (routeContent "abc" 2
      [.reply "\x7b\"route_type\":\"finance\",\"confidence\":1.5,\"summary\":\"x\",\"data\":\x7b\"amount\":2,\"category\":\"c\",\"description\":\"d\"\x7d\x7d"])
        "confidence" = .jnum (.fin ⟨5, 1⟩) ∧
    specClampConfidence (.jnum (.fin ⟨15, 1⟩)) = .fin ⟨1, 0⟩ ∧
    ¬ toRat ⟨5, 1⟩ = toRat ⟨1, 0⟩ := by
  refine ⟨rfl, by decide, ?_⟩
  rw [toRat_half, toRat_int]
  norm_num

/-- C3 (amended): every `routeContent` result, on every adapter oracle,
carries a finite confidence in the interval 0 to 1: out-of-range, missing
and non-numeric confidences are replaced with 0.5 (not clamped to the
nearer bound), and text replies cannot smuggle a NaN through the parser. -/
theorem claim_C3 :
    ∀ (content : String) (mr : Nat) (outs : List AttemptOutcome),
    ∃ q, optGet (routeContent content mr outs) "confidence" = .jnum (.fin q) ∧
      0 ≤ toRat q ∧ toRat q ≤ 1 := by
  intro content mr outs
  exact (routeContentLoop_facts content (mr + 1) outs none).2.1

/-- C4 counterexample: 冰箱买东西 contains the inventory keyword 冰箱 and
the finance keyword 买 and no digit, yet the heuristic returns null — not
an inventory result as the claim requires. -/
theorem claim_C4_counterexample :
    anyKw (cleanText "冰箱买东西") inventoryKeywords = true ∧
    anyKw (cleanText "冰箱买东西") financeKeywords = true ∧
    (∀ c ∈ (cleanText "冰箱买东西").data, isDig c = false) ∧
    inferRouteFromText "冰箱买东西" = none :=
  ⟨by decide, by decide, by decide, rfl⟩

/-- C4 (amended): on text whose cleaned form contains an inventory keyword
and a finance keyword but no ASCII digit, the heuristic never returns
finance: any guess it produces is a todo guess, because the inventory
branch requires the absence of finance keywords and the finance branch
requires a digit for its amount match. -/
theorem claim_C4 :
    ∀ content : String,
    anyKw (cleanText content) inventoryKeywords = true →
    anyKw (cleanText content) financeKeywords = true →
    (∀ c ∈ (cleanText content).data, isDig c = false) →
    ∀ g, inferRouteFromText content = some g → routeOf g = some "todo" := by
  intro content hinv hfin hdig g hg
  unfold inferRouteFromText at hg
  dsimp only at hg
  by_cases hemp : (cleanText content).data.isEmpty = true
  · have hd : (cleanText content).data = [] := by
      cases hl : (cleanText content).data with
      | nil => rfl
      | cons a b => rw [hl] at hemp; exact absurd hemp (by simp [List.isEmpty])
    have h0 : cleanText content = "" := by
      calc cleanText content = String.mk (cleanText content).data := rfl
        _ = String.mk [] := by rw [hd]
    rw [h0] at hinv
    exact absurd hinv (by decide)
  · rw [if_neg hemp] at hg
    have hc1 : ¬ (anyKw (cleanText content) inventoryKeywords = true ∧
        ¬ anyKw (cleanText content) financeKeywords = true) := fun hp => hp.2 hfin
    rw [if_neg hc1] at hg
    have hm : matchAmount (cleanText content).data = none := scanFor_num_none _ _ hdig
    have hc2 : ¬ (anyKw (cleanText content) financeKeywords = true ∧
        (matchAmount (cleanText content).data).isSome = true) := by
      intro hp
      rw [hm] at hp
      exact absurd hp.2 (by simp)
    rw [if_neg hc2] at hg
    split at hg
    · injection hg with hveq
      subst hveq
      rfl
    · exact absurd hg (by simp)

/-- C4 witness: the amended guarantee discharged on 冰箱买东西 (where the
heuristic returns null, so the conclusion holds vacuously but the
hypotheses are nontrivial and concrete). -/
theorem claim_C4_witness :
    anyKw (cleanText "冰箱买东西") inventoryKeywords = true ∧
    (∀ g, inferRouteFromText "冰箱买东西" = some g → routeOf g = some "todo") :=
  ⟨by decide, claim_C4 "冰箱买东西" (by decide) (by decide) (by decide)⟩

/-- C5 counterexample: `routeContent` itself has no empty-input guard — on
the empty string it still invokes the adapter once and returns whatever
the reply classifies to, not the Unknown nothing-to-analyze result. -/
theorem claim_C5_counterexample :
    routeContentCalls "" 2
      [.reply "\x7b\"route_type\":\"finance\",\"confidence\":0.9,\"summary\":\"x\",\"data\":\x7b\"amount\":2,\"category\":\"c\",\"description\":\"d\"\x7d\x7d"] = 1 ∧
    routeOf (routeContent "" 2
      [.reply "\x7b\"route_type\":\"finance\",\"confidence\":0.9,\"summary\":\"x\",\"data\":\x7b\"amount\":2,\"category\":\"c\",\"description\":\"d\"\x7d\x7d"]) =
      some "finance" ∧
    ¬ routeOf (routeContent "" 2
      [.reply "\x7b\"route_type\":\"finance\",\"confidence\":0.9,\"summary\":\"x\",\"data\":\x7b\"amount\":2,\"category\":\"c\",\"description\":\"d\"\x7d\x7d"]) =
      some "unknown" :=
  ⟨rfl, by decide, by decide⟩

/-- C5 (amended): the empty-input rejection lives in the processing
pipeline, not in `routeContent`: for every empty or whitespace-only
transcription, `processVoiceInput` returns the Unknown transcription-empty
result with confidence 0 before any routing/adapter call. -/
theorem claim_C5 :
    ∀ (t : String) (outs : List AttemptOutcome), trimS t = "" →
    processVoiceInput (.ok t) outs = (emptyTranscriptionResult, 0) ∧
    routeOf emptyTranscriptionResult = some "unknown" ∧
    optGet emptyTranscriptionResult "confidence" = .jnum (.fin ⟨0, 0⟩) := by
  intro t outs h
  exact ⟨processVoiceInput_empty t outs h, rfl, rfl⟩

/-- C5 witness: the amended guarantee on a whitespace-only transcription. -/
theorem claim_C5_witness :
    trimS "   " = "" ∧
    processVoiceInput (.ok "   ") [.reply "whatever"] = (emptyTranscriptionResult, 0) :=
  ⟨by decide, (claim_C5 "   " [.reply "whatever"] (by decide)).1⟩

/-- C6 counterexample: a todo result with a null payload and the summary
买菜 normalizes to category 未分类, but normalizing again re-infers 购物
from the defaulted title, so `normalizeRouteResponse` is not idempotent. -/
theorem claim_C6_counterexample :
    optGet (optGet (normalizeRouteResponse (.jobj [("route_type", .jstr "todo"),
      ("confidence", .jnum (.fin ⟨5, 1⟩)), ("summary", .jstr "买菜"), ("data", .jnull)]))
      "data") "category" = .jstr "未分类" ∧
    optGet (optGet (normalizeRouteResponse (normalizeRouteResponse
      (.jobj [("route_type", .jstr "todo"), ("confidence", .jnum (.fin ⟨5, 1⟩)),
        ("summary", .jstr "买菜"), ("data", .jnull)]))) "data") "category" = .jstr "购物" ∧
    ¬ normalizeRouteResponse (normalizeRouteResponse (.jobj [("route_type", .jstr "todo"),
      ("confidence", .jnum (.fin ⟨5, 1⟩)), ("summary", .jstr "买菜"), ("data", .jnull)])) =
      normalizeRouteResponse (.jobj [("route_type", .jstr "todo"),
        ("confidence", .jnum (.fin ⟨5, 1⟩)), ("summary", .jstr "买菜"), ("data", .jnull)]) := by
  refine ⟨rfl, rfl, ?_⟩
  intro h
  have h2 : (JSON.jstr "购物") = JSON.jstr "未分类" :=
    congrArg (fun r => optGet (optGet r "data") "category") h
  injection h2 with hs
  exact absurd hs (by decide)

/-- C6 (amended): `normalizeRouteResponse` is idempotent on every result
except todo results whose payload lacks a truthy title — there a second
pass can re-infer the keyword category from the title defaulted in the
first pass. -/
theorem claim_C6 :
    ∀ x : JSON,
    (routeOf x = some "todo" → truthyJ (optGet (optGet x "data") "title") = true) →
    normalizeRouteResponse (normalizeRouteResponse x) = normalizeRouteResponse x := by
  intro x hx
  exact normalize_idem_of_title x hx

/-- C6 witness: idempotence evaluated on a concrete finance result. -/
theorem claim_C6_witness :
    ((routeOf (.jobj [("route_type", .jstr "finance"), ("confidence", .jnum (.fin ⟨9, 1⟩)),
        ("summary", .jstr "咖啡"), ("data", .jnull)]) = some "todo" →
      truthyJ (optGet (optGet (.jobj [("route_type", .jstr "finance"),
        ("confidence", .jnum (.fin ⟨9, 1⟩)), ("summary", .jstr "咖啡"), ("data", .jnull)])
        "data") "title") = true)) ∧
    normalizeRouteResponse (normalizeRouteResponse (.jobj [("route_type", .jstr "finance"),
      ("confidence", .jnum (.fin ⟨9, 1⟩)), ("summary", .jstr "咖啡"), ("data", .jnull)])) =
      normalizeRouteResponse (.jobj [("route_type", .jstr "finance"),
        ("confidence", .jnum (.fin ⟨9, 1⟩)), ("summary", .jstr "咖啡"), ("data", .jnull)]) :=
  ⟨by decide, claim_C6 (.jobj [("route_type", .jstr "finance"),
    ("confidence", .jnum (.fin ⟨9, 1⟩)), ("summary", .jstr "咖啡"), ("data", .jnull)])
    (by decide)⟩

/-- C7 counterexample: replies that parse but lack required fields
(InvalidStructure) fail with a message that does not contain JSON, so a
run in which every failure was such a parse failure ends with the
connectivity summary — not the format-error summary the claim requires. -/
theorem claim_C7_counterexample :
    outcomeError "abc" (.reply "\x7b\"noroute\":1\x7d") =
      some "Invalid response structure: missing required fields" ∧
    routeContent "abc" 2 [.reply "\x7b\"noroute\":1\x7d", .reply "\x7b\"noroute\":1\x7d",
      .reply "\x7b\"noroute\":1\x7d"] =
      finalFailure (some "Invalid response structure: missing required fields") ∧
    optGet (routeContent "abc" 2 [.reply "\x7b\"noroute\":1\x7d", .reply "\x7b\"noroute\":1\x7d",
      .reply "\x7b\"noroute\":1\x7d"]) "summary" = .jstr connectivityErrorSummary ∧
    ¬ connectivityErrorSummary = formatErrorSummary :=
  ⟨rfl, rfl, rfl, by decide⟩

/-- C7 (amended): when all three attempts fail, the result is the Unknown
failure object built from the last attempt's error, and its summary is the
format message exactly when that last message contains the word JSON
(true for tier-exhaustion parse failures, false for InvalidStructure
failures and typical transport messages, which get the connectivity
message). -/
theorem claim_C7 :
    ∀ (content : String) (o1 o2 o3 : AttemptOutcome) (e1 e2 e3 : String),
    outcomeError content o1 = some e1 → outcomeError content o2 = some e2 →
    outcomeError content o3 = some e3 →
    routeContent content 2 [o1, o2, o3] = finalFailure (some e3) ∧
    optGet (routeContent content 2 [o1, o2, o3]) "summary" =
      .jstr (if strIncludes e3 "JSON" = true then formatErrorSummary
             else connectivityErrorSummary) := by
  intro content o1 o2 o3 e1 e2 e3 h1 h2 h3
  have hloop := routeContentLoop_three_fail content o1 o2 o3 e1 e2 e3 h1 h2 h3
  constructor
  · show (routeContentLoop content 3 [o1, o2, o3] none).1 = _
    rw [hloop]
  · show optGet (routeContentLoop content 3 [o1, o2, o3] none).1 "summary" = _
    rw [hloop]
    rfl

/-- C7 witness: three transport failures produce the connectivity
summary. -/
theorem claim_C7_witness :
    outcomeError "x" (.transport "网络错误") = some "网络错误" ∧
    routeContent "x" 2 [.transport "网络错误", .transport "网络错误", .transport "网络错误"] =
      finalFailure (some "网络错误") ∧
    optGet (routeContent "x" 2 [.transport "网络错误", .transport "网络错误",
      .transport "网络错误"]) "summary" = .jstr connectivityErrorSummary := by
  refine ⟨rfl, (claim_C7 "x" (.transport "网络错误") (.transport "网络错误")
    (.transport "网络错误") "网络错误" "网络错误" "网络错误" rfl rfl rfl).1, ?_⟩
  have h2 := (claim_C7 "x" (.transport "网络错误") (.transport "网络错误")
    (.transport "网络错误") "网络错误" "网络错误" "网络错误" rfl rfl rfl).2
  rw [h2]
  rfl

/-- C8: if every batch attempt yields zero valid elements,
`routeContentBatch` returns exactly the single-item `routeContent` result
wrapped in a one-element list; and in every case the batch router returns
at least one element. -/
theorem claim_C8 :
    ∀ (content : String) (mr : Nat) (bo so : List AttemptOutcome),
    ((∀ o ∈ bo.take (mr + 1), batchAttemptItems o = []) →
      routeContentBatch content mr bo so = [routeContent content 2 so]) ∧
    1 ≤ (routeContentBatch content mr bo so).length := by
  intro content mr bo so
  constructor
  · intro h
    unfold routeContentBatch
    rw [batchLoop_none_of_empty _ _ h]
  · unfold routeContentBatch
    cases hbl : batchLoop (mr + 1) bo with
    | some items =>
      obtain ⟨o, ho, heq, hne⟩ := batchLoop_mem _ _ _ hbl
      dsimp only
      subst heq
      exact Nat.one_le_iff_ne_zero.mpr (fun hlen =>
        hne (List.eq_nil_of_length_eq_zero hlen))
    | none => simp

/-- C8 witness: a batch run whose only attempt is a transport failure
degrades to the single-item router's result. -/
theorem claim_C8_witness :
    routeContentBatch "花了25元买咖啡" 1 [.transport "超时", .transport "超时"]
      [.transport "超时", .transport "超时", .transport "超时"] =
      [routeContent "花了25元买咖啡" 2 [.transport "超时", .transport "超时", .transport "超时"]] ∧
    1 ≤ (routeContentBatch "花了25元买咖啡" 1 [.transport "超时", .transport "超时"]
      [.transport "超时", .transport "超时", .transport "超时"]).length :=
  ⟨(claim_C8 "花了25元买咖啡" 1 [.transport "超时", .transport "超时"]
      [.transport "超时", .transport "超时", .transport "超时"]).1
    (by
      intro o ho
      simp only [List.take, List.mem_cons, List.not_mem_nil, or_false] at ho
      rcases ho with h | h <;> (subst h; rfl)),
   (claim_C8 "花了25元买咖啡" 1 [.transport "超时", .transport "超时"]
      [.transport "超时", .transport "超时", .transport "超时"]).2⟩

/-- C9 counterexample: on the truncated finance reply of scenario B, the
salvaged category is the partial value 餐 captured up to the truncation
point — not the normalizer default 其他 the claim requires, because the
category capture regex does not need a closing quote. -/
theorem claim_C9_counterexample :
    optGet (optGet (routeContent "花了25元买咖啡" 2
      [.reply "\x7b\"route_type\":\"finance\",\"confidence\":0.8,\"summary\":\"咖啡消费\",\"data\":\x7b\"amount\":25,\"category\":\"餐"])
      "data") "category" = .jstr "餐" ∧
    ¬ ("餐" : String) = "其他" :=
  ⟨rfl, by decide⟩

/-- C9 (amended): on the truncated reply, tier 1's precondition fails (no
closing brace) and tier 2 finds no brace span, so tier 3 field salvage
runs and recovers route finance, confidence 0.8, amount 25 — and category
餐, the partial value captured before the truncation point; the
description falls back to the summary. -/
theorem claim_C9 :
    strIncludes (cleanModelText
      "\x7b\"route_type\":\"finance\",\"confidence\":0.8,\"summary\":\"咖啡消费\",\"data\":\x7b\"amount\":25,\"category\":\"餐")
      (String.mk [braceR]) = false ∧
    braceSpan (cleanModelText
      "\x7b\"route_type\":\"finance\",\"confidence\":0.8,\"summary\":\"咖啡消费\",\"data\":\x7b\"amount\":25,\"category\":\"餐").data =
      none ∧
    routeOf (routeContent "花了25元买咖啡" 2
      [.reply "\x7b\"route_type\":\"finance\",\"confidence\":0.8,\"summary\":\"咖啡消费\",\"data\":\x7b\"amount\":25,\"category\":\"餐"]) =
      some "finance" ∧
    optGet (routeContent "花了25元买咖啡" 2
      [.reply "\x7b\"route_type\":\"finance\",\"confidence\":0.8,\"summary\":\"咖啡消费\",\"data\":\x7b\"amount\":25,\"category\":\"餐"])
      "confidence" = .jnum (.fin ⟨8, 1⟩) ∧
    optGet (routeContent "花了25元买咖啡" 2
      [.reply "\x7b\"route_type\":\"finance\",\"confidence\":0.8,\"summary\":\"咖啡消费\",\"data\":\x7b\"amount\":25,\"category\":\"餐"])
      "summary" = .jstr "咖啡消费" ∧
    optGet (optGet (routeContent "花了25元买咖啡" 2
      [.reply "\x7b\"route_type\":\"finance\",\"confidence\":0.8,\"summary\":\"咖啡消费\",\"data\":\x7b\"amount\":25,\"category\":\"餐"])
      "data") "amount" = .jnum (.fin ⟨25, 0⟩) ∧
    optGet (optGet (routeContent "花了25元买咖啡" 2
      [.reply "\x7b\"route_type\":\"finance\",\"confidence\":0.8,\"summary\":\"咖啡消费\",\"data\":\x7b\"amount\":25,\"category\":\"餐"])
      "data") "category" = .jstr "餐" ∧
    optGet (optGet (routeContent "花了25元买咖啡" 2
      [.reply "\x7b\"route_type\":\"finance\",\"confidence\":0.8,\"summary\":\"咖啡消费\",\"data\":\x7b\"amount\":25,\"category\":\"餐"])
      "data") "description" = .jstr "咖啡消费" :=
  ⟨by decide, by decide, rfl, rfl, rfl, rfl, rfl, rfl⟩

/-- C10: a batch attempt performs one strict JSON parse of the cleaned
reply: whenever that parse fails the attempt contributes zero items, even
on a concrete reply from which the single-item router's field salvage
would have recovered a finance result. -/
theorem claim_C10 :
    (∀ t : String, jsonParse (cleanModelText t) = none →
      batchAttemptItems (.reply t) = []) ∧
    (jsonParse (cleanModelText
      "好的 \x7b\"route_type\":\"finance\",\"confidence\":0.9,\"summary\":\"x\",\"data\":\x7b\"amount\":3\x7d\x7d 收到") =
      none ∧
    (extractRouteFromText (cleanModelText
      "好的 \x7b\"route_type\":\"finance\",\"confidence\":0.9,\"summary\":\"x\",\"data\":\x7b\"amount\":3\x7d\x7d 收到")).isSome =
      true ∧
    batchAttemptItems (.reply
      "好的 \x7b\"route_type\":\"finance\",\"confidence\":0.9,\"summary\":\"x\",\"data\":\x7b\"amount\":3\x7d\x7d 收到") =
      []) := by
  refine ⟨?_, rfl, by decide, rfl⟩
  intro t h
  unfold batchAttemptItems
  dsimp only
  rw [h]

/-- C10 witness: the universal part discharged on a reply that is not
valid JSON as a whole. -/
theorem claim_C10_witness :
    jsonParse (cleanModelText "this is not json") = none ∧
    batchAttemptItems (.reply "this is not json") = [] :=
  ⟨rfl, claim_C10.1 "this is not json" rfl⟩
